import Mathlib

/-!
# Light component: colour correction tables and the light state controller

A shallow embedding of `esphome/components/light/esp_color_correction.cpp` and
`esphome/components/light/light_state.cpp` (with `light_state.h`), followed by theorems
about the embedded functions.

Conventions of the embedding:

* a `uint8_t[256]` table is a function `Nat → Nat`; a store writes `v % 256`, and every
  lookup made by the code is shown to use an index below 256;
* `float` is a type parameter `F`; the helper functions that the translated files call but
  do not define are fields of `ColorHelpers F`;
* `millis()` is an explicit argument `now`;
* hooks of effects, callbacks and the output write are recorded in a trace of events.
-/

namespace esphome
namespace light

/-! ## Colour correction tables (`esp_color_correction.cpp`) -/

/-- The helper functions called by `esp_color_correction.cpp` and defined elsewhere
(`gamma_correct`, `gamma_uncorrect`, `brightness_correct`, `brightness_uncorrect`,
`to_uint8_scale`), together with the two float expressions of the file: `i / 255.0f`
(`div255`) and `gamma == 0.0f` (`is_zero`). They are parameters of the embedding. -/
structure ColorHelpers (F : Type) where
  div255 : Nat → F
  is_zero : F → Bool
  gamma_correct : F → F → F
  gamma_uncorrect : F → F → F
  brightness_correct : F → F → F → F
  brightness_uncorrect : F → F → F → F
  to_uint8_scale : F → Nat

/-- The six `uint8_t[256]` members of `ESPColorCorrection`. -/
@[ext]
structure ESPColorCorrection where
  gamma_table_ : Nat → Nat
  gamma_reverse_table_ : Nat → Nat
  brightness_table_ : Nat → Nat
  brightness_reverse_table_ : Nat → Nat
  correction_table_ : Nat → Nat
  correction_reverse_table_ : Nat → Nat

/-- The assignment `table[i] = v` into a `uint8_t` table: the stored value is `v % 256`. -/
def store (t : Nat → Nat) (i v : Nat) : Nat → Nat :=
  fun k => if k = i then v % 256 else t k

/-- The loop `for (uint16_t i = lo; i < hi; i++) body`. -/
def forRange {σ : Type} (lo hi : Nat) (body : Nat → σ → σ) (s : σ) : σ :=
  (List.range' lo (hi - lo)).foldl (fun acc i => body i acc) s

/-- Lines 12-13 of `esp_color_correction.cpp`: one iteration of the loop filling
`gamma_table_[1..255]`. -/
def gamma_step {F : Type} (h : ColorHelpers F) (gamma : F) (i : Nat)
    (s : ESPColorCorrection) : ESPColorCorrection :=
  let corrected := h.to_uint8_scale (h.gamma_correct (h.div255 i) gamma)
  { s with gamma_table_ := store s.gamma_table_ i corrected }

/-- Line 17: one iteration of the loop of the branch `gamma == 0.0f`. -/
def gamma_reverse_identity_step (i : Nat) (s : ESPColorCorrection) : ESPColorCorrection :=
  { s with gamma_reverse_table_ := store s.gamma_reverse_table_ i i }

/-- Lines 23-24: one iteration of the loop filling `gamma_reverse_table_[1..255]`. -/
def gamma_reverse_step {F : Type} (h : ColorHelpers F) (gamma : F) (i : Nat)
    (s : ESPColorCorrection) : ESPColorCorrection :=
  let uncorrected := h.to_uint8_scale (h.gamma_uncorrect (h.div255 i) gamma)
  { s with gamma_reverse_table_ := store s.gamma_reverse_table_ i uncorrected }

/-- Embedding of `ESPColorCorrection::calculate_gamma_table`. -/
def calculate_gamma_table {F : Type} (h : ColorHelpers F) (gamma : F)
    (self : ESPColorCorrection) : ESPColorCorrection :=
  let s0 := { self with gamma_table_ := store self.gamma_table_ 0 0 }
  let s1 := forRange 1 256 (gamma_step h gamma) s0
  if h.is_zero gamma then
    forRange 0 256 gamma_reverse_identity_step s1
  else
    let s2 := { s1 with gamma_reverse_table_ := store s1.gamma_reverse_table_ 0 0 }
    forRange 1 256 (gamma_reverse_step h gamma) s2

/-- Lines 30-31: one iteration of the loop filling `brightness_table_`. -/
def brightness_step {F : Type} (h : ColorHelpers F) (min_brightness max_brightness : F)
    (i : Nat) (s : ESPColorCorrection) : ESPColorCorrection :=
  let corrected :=
    h.to_uint8_scale (h.brightness_correct (h.div255 i) min_brightness max_brightness)
  { s with brightness_table_ := store s.brightness_table_ i corrected }

/-- Lines 34-35: one iteration of the loop filling `brightness_reverse_table_`. -/
def brightness_reverse_step {F : Type} (h : ColorHelpers F) (min_brightness max_brightness : F)
    (i : Nat) (s : ESPColorCorrection) : ESPColorCorrection :=
  let uncorrected :=
    h.to_uint8_scale (h.brightness_uncorrect (h.div255 i) min_brightness max_brightness)
  { s with brightness_reverse_table_ := store s.brightness_reverse_table_ i uncorrected }

/-- Embedding of `ESPColorCorrection::calculate_brightness_table`. -/
def calculate_brightness_table {F : Type} (h : ColorHelpers F) (min_brightness max_brightness : F)
    (self : ESPColorCorrection) : ESPColorCorrection :=
  let s1 := forRange 0 256 (brightness_step h min_brightness max_brightness) self
  forRange 0 256 (brightness_reverse_step h min_brightness max_brightness) s1

/-- Lines 43-44: one iteration of the composing loop. -/
def correction_step (i : Nat) (s : ESPColorCorrection) : ESPColorCorrection :=
  let t : ESPColorCorrection :=
    { s with
      correction_table_ :=
        store s.correction_table_ i (s.gamma_table_ (s.brightness_table_ i)) }
  { t with
    correction_reverse_table_ :=
      store t.correction_reverse_table_ i
        (t.gamma_reverse_table_ (t.brightness_reverse_table_ i)) }

/-- Embedding of `ESPColorCorrection::calculate_correction_table`. -/
def calculate_correction_table {F : Type} (h : ColorHelpers F)
    (gamma min_brightness max_brightness : F) (self : ESPColorCorrection) : ESPColorCorrection :=
  let s1 := calculate_gamma_table h gamma self
  let s2 := calculate_brightness_table h min_brightness max_brightness s1
  forRange 0 256 correction_step s2

/-! ### An exact-arithmetic instance of the helper functions -/

/-- Modelled from the spec: the `float` values of the table builders in exact real arithmetic.
The helper functions of `esp_color_correction.cpp` are not under the translated sources, and
the spec gives them as formulas over the reals (`(i/255)^gamma`, `(i/255)^(1/gamma)`, a linear
remap, rounding to 8 bits). `ExactReal` stands for the nonnegative real
`(num / den) ^ (pn / pd)`; a plain number has `pn = pd = 1`. -/
structure ExactReal where
  num : Nat
  den : Nat
  pn : Nat
  pd : Nat
  deriving DecidableEq, Repr

/-- The plain number `n / d`. -/
def ExactReal.frac (n d : Nat) : ExactReal := ⟨n, d, 1, 1⟩

/-- Modelled from the spec: `round8(x × 255)` for `x = (num/den)^(pn/pd)`, the helper
`to_uint8_scale` that is not under the translated sources. Rounding is to nearest, halves
up: the result is the number of `n` in `1..255` with `n - 1/2 ≤ 255 x`, that is with
`(2n-1)^pd * den^pn ≤ 510^pd * num^pn`; values above 255 saturate. -/
def ExactReal.round8 (x : ExactReal) : Nat :=
  ((List.range 256).filter (fun n =>
    decide (1 ≤ n ∧ (2 * n - 1) ^ x.pd * x.den ^ x.pn ≤ 510 ^ x.pd * x.num ^ x.pn))).length

/-- Modelled from the spec: the helper functions that `esp_color_correction.cpp` calls and
that are not under the translated sources, in exact arithmetic on plain arguments:
`gamma_correct v g = v^g`, `gamma_uncorrect v g = v^(1/g)`, the linear remap of `[0,1]` onto
`[min, max]`, `brightness_correct v min max = min + v (max - min)`, its inverse
`brightness_uncorrect v min max = (v - min) / (max - min)`, and `to_uint8_scale = round8`.
Differences are taken in `Nat` and so stop at zero. -/
def exactHelpers : ColorHelpers ExactReal where
  div255 i := ExactReal.frac i 255
  is_zero g := decide (g.num = 0)
  gamma_correct v g := ⟨v.num, v.den, v.pn * g.num, v.pd * g.den⟩
  gamma_uncorrect v g := ⟨v.num, v.den, v.pn * g.den, v.pd * g.num⟩
  brightness_correct v mn mx :=
    ExactReal.frac (mn.num * v.den * mx.den + v.num * (mx.num * mn.den - mn.num * mx.den))
      (mn.den * v.den * mx.den)
  brightness_uncorrect v mn mx :=
    ExactReal.frac ((v.num * mn.den - mn.num * v.den) * mx.den)
      (v.den * (mx.num * mn.den - mn.num * mx.den))
  to_uint8_scale x := x.round8

/-- A colour correction object whose tables are all zero, as a starting state. -/
def zeroTables : ESPColorCorrection :=
  ⟨fun _ => 0, fun _ => 0, fun _ => 0, fun _ => 0, fun _ => 0, fun _ => 0⟩

/-! ## The light state controller (`light_state.h`, `light_state.cpp`) -/

/-- The `enum LightRestoreMode` of `light_state.h`. -/
inductive LightRestoreMode where
  | LIGHT_RESTORE_DEFAULT_OFF
  | LIGHT_RESTORE_DEFAULT_ON
  | LIGHT_ALWAYS_OFF
  | LIGHT_ALWAYS_ON
  deriving DecidableEq, Repr

/-- Modelled from the spec: the two variants of a transformer, Transition and Flash
(`light_transformer.h` is not under the translated sources). -/
inductive TransformerKind where
  | transition
  | flash
  deriving DecidableEq, Repr

/-- Modelled from the spec: `LightTransformer`, declared in `light_transformer.h`, which is not
under the translated sources. The spec gives a transformer the attributes start time,
duration, start value and target value, in two variants. `V` is the type `LightColorValues`
(`light_color_values.h`, not under the translated sources either). -/
structure LightTransformer (V : Type) where
  kind : TransformerKind
  start_time : Nat
  length : Nat
  start_values : V
  target_values : V
  deriving DecidableEq, Repr

/-- Modelled from the spec: the constructor call
`LightTransitionTransformer(millis(), length, start_values, target_values)`. -/
def LightTransitionTransformer {V : Type} (now length : Nat) (start_values target_values : V) :
    LightTransformer V :=
  ⟨TransformerKind.transition, now, length, start_values, target_values⟩

/-- Modelled from the spec: the constructor call
`LightFlashTransformer(millis(), length, start_values, target_values)`; its start value is the
baseline captured at flash start. -/
def LightFlashTransformer {V : Type} (now length : Nat) (start_values target_values : V) :
    LightTransformer V :=
  ⟨TransformerKind.flash, now, length, start_values, target_values⟩

namespace LightTransformer

/-- Modelled from the spec: `is_finished()` is true once the elapsed fraction
`clamp((now - start) / duration, 0, 1)` equals 1, that is once `duration ≤ now - start`; a
duration of 0 is finished on the first check and nothing is divided. -/
def is_finished {V : Type} (t : LightTransformer V) (now : Nat) : Bool :=
  decide (t.length ≤ now - t.start_time)

/-- Modelled from the spec: `get_values()`. A Transition interpolates every channel from
start to target (`lerp start target elapsed duration`, the interpolation of
`LightColorValues` being a parameter); a Flash holds the target value. -/
def get_values {V : Type} (lerp : V → V → Nat → Nat → V) (t : LightTransformer V)
    (now : Nat) : V :=
  match t.kind with
  | TransformerKind.transition =>
    lerp t.start_values t.target_values (now - t.start_time) t.length
  | TransformerKind.flash => t.target_values

/-- Modelled from the spec: `get_remote_values()`. A Transition reports its target from the
start; a Flash reports the flash target while active. -/
def get_remote_values {V : Type} (t : LightTransformer V) : V :=
  t.target_values

/-- Modelled from the spec: `get_end_values()`, the value committed on completion. A
Transition ends at its target; a Flash reverts to the baseline captured at flash start. -/
def get_end_values {V : Type} (t : LightTransformer V) : V :=
  match t.kind with
  | TransformerKind.transition => t.target_values
  | TransformerKind.flash => t.start_values

/-- Modelled from the spec: `publish_at_end()` is false for a Transition and true for a
Flash. -/
def publish_at_end {V : Type} (t : LightTransformer V) : Bool :=
  match t.kind with
  | TransformerKind.transition => false
  | TransformerKind.flash => true

end LightTransformer

/-- Modelled from the spec: `LightEffect` (`light_effect.h` is not under the translated
sources), the capability interface init, start, apply, stop, name. The per-tick hook
`apply` mutates `current_values`; the other hooks only leave an event in the trace. -/
structure LightEffect (V : Type) where
  name : String
  apply : V → V

/-- The observable actions of the controller on its collaborators, in the order they happen.
An effect is named by its 1-based index, a callback by its position of registration; a
callback event carries `current_values` and `remote_values` at the moment of the call. -/
inductive Event (V : Type) where
  | effect_start (index : Nat)
  | effect_stop (index : Nat)
  | effect_apply (index : Nat)
  | remote_values_callback (id : Nat) (current remote : V)
  | target_state_reached_callback (id : Nat) (current remote : V)
  | write_state (current : V)
  deriving DecidableEq, Repr

/-- The members of `class LightState` (`light_state.h`) that `light_state.cpp` reads and
writes; a `CallbackManager<void()>` is the number of callbacks added to it, `trace` is the
log of events. The members `rtc_`, `output_` and `gamma_correct_` are left out. -/
structure LightState (V : Type) where
  current_values : V
  remote_values : V
  restore_mode_ : LightRestoreMode
  default_transition_length_ : Nat
  active_effect_index_ : Nat
  transformer_ : Option (LightTransformer V)
  remote_values_callback_ : Nat
  target_state_reached_callback_ : Nat
  next_write_ : Bool
  effects_ : List (LightEffect V)
  trace : List (Event V)

namespace LightState

/-- The state after the constructor `LightState::LightState`: the member initialisers of
`light_state.h` (`next_write_{true}`, `transformer_{nullptr}`, zero effect index, empty
lists), both values being the default `LightColorValues`. -/
def init {V : Type} (default_values : V) (restore_mode : LightRestoreMode) : LightState V where
  current_values := default_values
  remote_values := default_values
  restore_mode_ := restore_mode
  default_transition_length_ := 0
  active_effect_index_ := 0
  transformer_ := none
  remote_values_callback_ := 0
  target_state_reached_callback_ := 0
  next_write_ := true
  effects_ := []
  trace := []

/-- Embedding of `LightState::start_transition_`; `now` is the value of `millis()`. -/
def start_transition_ {V : Type} (now : Nat) (target : V) (length : Nat)
    (self : LightState V) : LightState V :=
  let s1 := { self with
    transformer_ := some (LightTransitionTransformer now length self.current_values target) }
  match s1.transformer_ with
  | some t => { s1 with remote_values := t.get_remote_values }
  | none => s1

/-- Embedding of `LightState::start_flash_`; `now` is the value of `millis()`. -/
def start_flash_ {V : Type} (now : Nat) (target : V) (length : Nat)
    (self : LightState V) : LightState V :=
  let end_colors : V :=
    match self.transformer_ with
    | some t => t.get_end_values
    | none => self.current_values
  let s1 := { self with
    transformer_ := some (LightFlashTransformer now length end_colors target) }
  match s1.transformer_ with
  | some t => { s1 with remote_values := t.get_remote_values }
  | none => s1

/-- Embedding of `LightState::set_immediately_`. -/
def set_immediately_ {V : Type} (target : V) (set_remote_values : Bool)
    (self : LightState V) : LightState V :=
  let s1 := { self with transformer_ := none }
  let s2 := { s1 with current_values := target }
  let s3 := if set_remote_values then { s2 with remote_values := target } else s2
  { s3 with next_write_ := true }

/-- Embedding of `remote_values_callback_.call()`: every callback runs, in the order of
registration. -/
def call_remote_values_callback_ {V : Type} (self : LightState V) : LightState V :=
  { self with
    trace := self.trace ++ (List.range self.remote_values_callback_).map
      (fun id => Event.remote_values_callback id self.current_values self.remote_values) }

/-- Embedding of `target_state_reached_callback_.call()`: every callback runs, in the order
of registration. -/
def call_target_state_reached_callback_ {V : Type} (self : LightState V) : LightState V :=
  { self with
    trace := self.trace ++ (List.range self.target_state_reached_callback_).map
      (fun id => Event.target_state_reached_callback id self.current_values
        self.remote_values) }

/-- Embedding of `LightState::publish_state`. -/
def publish_state {V : Type} (self : LightState V) : LightState V :=
  { call_remote_values_callback_ self with next_write_ := true }

/-- Embedding of `LightState::get_active_effect_`. The result `some none` is `nullptr`; the
result `none` is the undefined read `effects_[index - 1]` beyond the end of the vector. -/
def get_active_effect_ {V : Type} (self : LightState V) : Option (Option (LightEffect V)) :=
  if self.active_effect_index_ = 0 then some none
  else
    match self.effects_[self.active_effect_index_ - 1]? with
    | some effect => some (some effect)
    | none => none

/-- Embedding of `LightState::get_effect_name`; `none` is the undefined read beyond the end
of `effects_`. -/
def get_effect_name {V : Type} (self : LightState V) : Option String :=
  if self.active_effect_index_ > 0 then
    match self.effects_[self.active_effect_index_ - 1]? with
    | some effect => some effect.name
    | none => none
  else some "None"

/-- Embedding of `LightState::stop_effect_`; `none` when `get_active_effect_` is undefined. -/
def stop_effect_ {V : Type} (self : LightState V) : Option (LightState V) :=
  match get_active_effect_ self with
  | none => none
  | some effect =>
    let s1 :=
      match effect with
      | some _ => { self with
          trace := self.trace ++ [Event.effect_stop self.active_effect_index_] }
      | none => self
    some { s1 with active_effect_index_ := 0 }

/-- Embedding of `LightState::start_effect_`; `none` when an effect lookup is undefined. -/
def start_effect_ {V : Type} (effect_index : Nat) (self : LightState V) :
    Option (LightState V) :=
  match stop_effect_ self with
  | none => none
  | some s1 =>
    if effect_index = 0 then some s1
    else
      let s2 := { s1 with active_effect_index_ := effect_index }
      match get_active_effect_ s2 with
      | some (some _) => some { s2 with trace := s2.trace ++ [Event.effect_start effect_index] }
      | _ => none

/-- Embedding of the transformer block of `LightState::loop` (lines 133-145) for an active
transformer `t`. -/
def loop_transformer {V : Type} (lerp : V → V → Nat → Nat → V) (now : Nat)
    (t : LightTransformer V) (s1 : LightState V) : LightState V :=
  let s2 :=
    if t.is_finished now then
      let s3 := { s1 with current_values := t.get_end_values }
      let s4 := { s3 with remote_values := s3.current_values }
      let s5 := call_target_state_reached_callback_ s4
      let s6 := if t.publish_at_end then publish_state s5 else s5
      { s6 with transformer_ := none }
    else
      let s3 := { s1 with current_values := t.get_values lerp now }
      { s3 with remote_values := t.get_remote_values }
  { s2 with next_write_ := true }

/-- Embedding of the effect block of `LightState::loop` (lines 127-130), `effect` being the
pointer returned by `get_active_effect_`. -/
def loop_effect {V : Type} (effect : Option (LightEffect V)) (self : LightState V) :
    LightState V :=
  match effect with
  | some e => { self with
      current_values := e.apply self.current_values
      trace := self.trace ++ [Event.effect_apply self.active_effect_index_] }
  | none => self

/-- Embedding of the write block of `LightState::loop` (lines 147-150). -/
def loop_write {V : Type} (self : LightState V) : LightState V :=
  if self.next_write_ then
    { self with
      trace := self.trace ++ [Event.write_state self.current_values]
      next_write_ := false }
  else self

/-- Embedding of `LightState::loop`; `now` is the value of `millis()`, `none` when
`get_active_effect_` is undefined. -/
def loop {V : Type} (lerp : V → V → Nat → Nat → V) (now : Nat) (self : LightState V) :
    Option (LightState V) :=
  match get_active_effect_ self with
  | none => none
  | some effect =>
    let s1 := loop_effect effect self
    let s2 :=
      match s1.transformer_ with
      | some t => loop_transformer lerp now t s1
      | none => s1
    some (loop_write s2)

/-- Embedding of `LightState::add_effects`. -/
def add_effects {V : Type} (effects : List (LightEffect V)) (self : LightState V) :
    LightState V :=
  { self with effects_ := self.effects_ ++ effects }

/-- Embedding of `LightState::add_new_remote_values_callback`. -/
def add_new_remote_values_callback {V : Type} (self : LightState V) : LightState V :=
  { self with remote_values_callback_ := self.remote_values_callback_ + 1 }

/-- Embedding of `LightState::add_new_target_state_reached_callback`. -/
def add_new_target_state_reached_callback {V : Type} (self : LightState V) : LightState V :=
  { self with target_state_reached_callback_ := self.target_state_reached_callback_ + 1 }

end LightState

/-- The requests that reach the controller, and its tick. -/
inductive Request (V : Type) where
  | start_transition_ (now : Nat) (target : V) (length : Nat)
  | start_flash_ (now : Nat) (target : V) (length : Nat)
  | set_immediately_ (target : V) (set_remote_values : Bool)
  | start_effect_ (effect_index : Nat)
  | stop_effect_
  | publish_state
  | loop (now : Nat)

/-- One request performed on a state; `none` when the operation is undefined. -/
def Request.perform {V : Type} (lerp : V → V → Nat → Nat → V) :
    Request V → LightState V → Option (LightState V)
  | Request.start_transition_ now target length, s =>
    some (LightState.start_transition_ now target length s)
  | Request.start_flash_ now target length, s =>
    some (LightState.start_flash_ now target length s)
  | Request.set_immediately_ target b, s => some (LightState.set_immediately_ target b s)
  | Request.start_effect_ k, s => LightState.start_effect_ k s
  | Request.stop_effect_, s => LightState.stop_effect_ s
  | Request.publish_state, s => some (LightState.publish_state s)
  | Request.loop now, s => LightState.loop lerp now s

/-- Requests performed one after the other from a state; `none` as soon as one of them is
undefined. The states reachable from `s` are the results `some t` of `Request.run`. -/
def Request.run {V : Type} (lerp : V → V → Nat → Nat → V) :
    List (Request V) → LightState V → Option (LightState V)
  | [], s => some s
  | r :: rs, s =>
    match r.perform lerp s with
    | some t => Request.run lerp rs t
    | none => none

/-- The requests that write `remote_values` whenever they write `current_values` with no
transformer left: `set_immediately_` with `set_remote_values = true`, and a tick in which,
when no transformer is active, the active effect (if any) returns `current_values`
unchanged from its `apply` hook; every other request qualifies. -/
def Request.keeps_remote {V : Type} : Request V → LightState V → Prop
  | Request.set_immediately_ _ b, _ => b = true
  | Request.loop _, s =>
    s.transformer_ = none →
      ∀ e, s.get_active_effect_ = some (some e) → e.apply s.current_values = s.current_values
  | _, _ => True

/-- Every request of the run satisfies `Request.keeps_remote` in the state it is performed
in. -/
def Request.all_keep_remote {V : Type} (lerp : V → V → Nat → Nat → V) :
    List (Request V) → LightState V → Prop
  | [], _ => True
  | r :: rs, s =>
    r.keeps_remote s ∧
      match r.perform lerp s with
      | some t => Request.all_keep_remote lerp rs t
      | none => True

/-- A linear interpolation on `Nat` values, for the concrete runs below. -/
def natLerp (a b elapsed length : Nat) : Nat :=
  (a * (length - elapsed) + b * elapsed) / length

/-- A concrete run on `Nat` values: a transition of length 10 to the value 5 started at time
0, a tick at time 4, `publish_state`, a tick at time 10, `set_immediately_(7, true)` and a
tick at time 11. -/
def transitionRun : List (Request Nat) :=
  [Request.start_transition_ 0 5 10, Request.loop 4, Request.publish_state, Request.loop 10,
    Request.set_immediately_ 7 true, Request.loop 11]

/-- The state in which `transitionRun` ends when started in the constructed state. -/
def transitionRunEnd : LightState Nat where
  current_values := 7
  remote_values := 7
  restore_mode_ := LightRestoreMode.LIGHT_RESTORE_DEFAULT_OFF
  default_transition_length_ := 0
  active_effect_index_ := 0
  transformer_ := none
  remote_values_callback_ := 0
  target_state_reached_callback_ := 0
  next_write_ := false
  effects_ := []
  trace := [Event.write_state 2, Event.write_state 5, Event.write_state 7]

/-- A state in which a Flash from baseline 1 to target 2, of length 100 and started at time 0,
is running: the constructed state with value 1 after `start_flash_(2, 100)` at time 0. -/
def flashRunning : LightState Nat :=
  LightState.start_flash_ 0 2 100 (LightState.init 1 LightRestoreMode.LIGHT_RESTORE_DEFAULT_OFF)

/-! ### The tick seen through its events -/

/-- The event is the invocation of a callback of either registry. -/
def Event.is_callback {V : Type} : Event V → Bool
  | Event.remote_values_callback _ _ _ => true
  | Event.target_state_reached_callback _ _ _ => true
  | _ => false

/-- The event is the hardware write `output_->write_state(this)`. -/
def Event.is_write {V : Type} : Event V → Bool
  | Event.write_state _ => true
  | _ => false

/-- The callback invocations of a trace, in order. -/
def callbacks_of {V : Type} (trace : List (Event V)) : List (Event V) :=
  trace.filter Event.is_callback

/-- The event left by the effect block of a tick: the `apply` hook of the active effect when
`get_active_effect_` returned one, nothing for `nullptr`. -/
def effect_events {V : Type} (effect : Option (LightEffect V)) (self : LightState V) :
    List (Event V) :=
  match effect with
  | some _ => [Event.effect_apply self.active_effect_index_]
  | none => []

/-- The invocations made by `target_state_reached_callback_.call()` with both values equal to
`v`: one per callback, in the order of registration. -/
def target_reached_events {V : Type} (self : LightState V) (v : V) : List (Event V) :=
  (List.range self.target_state_reached_callback_).map
    (fun id => Event.target_state_reached_callback id v v)

/-- The invocations made by `remote_values_callback_.call()` with both values equal to `v`:
one per callback, in the order of registration. -/
def remote_changed_events {V : Type} (self : LightState V) (v : V) : List (Event V) :=
  (List.range self.remote_values_callback_).map
    (fun id => Event.remote_values_callback id v v)

/-! ### Startup restore (`LightState::setup`) -/

/-- The `struct LightStateRTCState` of `light_state.h`; `F` is the type `float`. -/
structure LightStateRTCState (F : Type) where
  state : Bool
  brightness : F
  red : F
  green : F
  blue : F
  white : F
  color_temp : F
  effect : Nat
  deriving DecidableEq, Repr

/-- The value-initialised struct `LightStateRTCState recovered{}`: the member initialisers of
`light_state.h`, `one` being the float literal `1.0f`. -/
def LightStateRTCState.init {F : Type} (one : F) : LightStateRTCState F where
  state := false
  brightness := one
  red := one
  green := one
  blue := one
  white := one
  color_temp := one
  effect := 0

/-- Modelled from the spec: the setters of the call builder `LightCall` (`light_call.h` is not
under the translated sources) that `LightState::setup` invokes. Whether an `_if_supported`
setter takes effect is decided by the builder from the traits of the output. -/
inductive LightCallSetter (F : Type) where
  | set_state (state : Bool)
  | set_brightness_if_supported (brightness : F)
  | set_red_if_supported (red : F)
  | set_green_if_supported (green : F)
  | set_blue_if_supported (blue : F)
  | set_white_if_supported (white : F)
  | set_color_temperature_if_supported (color_temp : F)
  | set_effect (effect_index : Nat)
  | set_transition_length_if_supported (transition_length : Nat)
  deriving DecidableEq, Repr

/-- Modelled from the spec: a `LightCall` (`light_call.h` is not under the translated
sources), as the setters invoked on it, in order. -/
structure LightCall (F : Type) where
  setters : List (LightCallSetter F)
  deriving DecidableEq, Repr

/-- Embedding of `LightState::make_call`: a call with no setter invoked yet. -/
def make_call {F : Type} : LightCall F := ⟨[]⟩

/-- One setter invoked on a call. -/
def LightCall.set {F : Type} (call : LightCall F) (setter : LightCallSetter F) : LightCall F :=
  ⟨call.setters ++ [setter]⟩

/-- What lines 93-109 of `light_state.cpp` leave: the struct `recovered` and the number of
calls of `rtc_.load`. -/
structure Recovery (F : Type) where
  recovered : LightStateRTCState F
  loads : Nat
  deriving DecidableEq, Repr

/-- Embedding of lines 93-109 of `LightState::setup`, the `switch` over `restore_mode_`.
Modelled from the spec: the persistence collaborator (`preferences.h` is not under the
translated sources), `load(identity_hash)` giving an optional persisted state; `persisted`
is what it holds for this light, `rtc_.load(&recovered)` returns `true` and fills `recovered`
when there is one and returns `false` leaving `recovered` alone otherwise. -/
def setup_recover {F : Type} (one : F) (restore_mode : LightRestoreMode)
    (persisted : Option (LightStateRTCState F)) : Recovery F :=
  let recovered := LightStateRTCState.init one
  match restore_mode with
  | LightRestoreMode.LIGHT_RESTORE_DEFAULT_OFF | LightRestoreMode.LIGHT_RESTORE_DEFAULT_ON =>
    match persisted with
    | some loaded => ⟨loaded, 1⟩
    | none =>
      ⟨{ recovered with
          state := decide (restore_mode = LightRestoreMode.LIGHT_RESTORE_DEFAULT_ON) }, 1⟩
  | LightRestoreMode.LIGHT_ALWAYS_OFF => ⟨{ recovered with state := false }, 0⟩
  | LightRestoreMode.LIGHT_ALWAYS_ON => ⟨{ recovered with state := true }, 0⟩

/-- Embedding of lines 92 and 111-122 of `LightState::setup`: the call built from
`recovered`. -/
def setup_call {F : Type} (recovered : LightStateRTCState F) : LightCall F :=
  let call : LightCall F := make_call
  let call := call.set (LightCallSetter.set_state recovered.state)
  let call := call.set (LightCallSetter.set_brightness_if_supported recovered.brightness)
  let call := call.set (LightCallSetter.set_red_if_supported recovered.red)
  let call := call.set (LightCallSetter.set_green_if_supported recovered.green)
  let call := call.set (LightCallSetter.set_blue_if_supported recovered.blue)
  let call := call.set (LightCallSetter.set_white_if_supported recovered.white)
  let call := call.set (LightCallSetter.set_color_temperature_if_supported recovered.color_temp)
  if recovered.effect ≠ 0 then
    call.set (LightCallSetter.set_effect recovered.effect)
  else
    call.set (LightCallSetter.set_transition_length_if_supported 0)

/-- The hooks that `LightState::setup` runs on its collaborators before it builds the call:
`output_->setup_state(this)` and `effect->init_internal(this)`, an effect being named by its
1-based index. -/
inductive SetupHook where
  | setup_state
  | effect_init (index : Nat)
  deriving DecidableEq, Repr

/-- The result of `LightState::setup`: the hooks run on the collaborators, the recovery, the
call, and the state after `call.perform()`. -/
structure SetupResult (V F : Type) where
  hooks : List SetupHook
  recovery : Recovery F
  call : LightCall F
  state : Option (LightState V)

/-- Embedding of `LightState::setup`. The method `LightCall::perform` is a parameter
(`light_call.cpp` is not under the translated sources); `none` is an undefined `perform`. -/
def LightState.setup {V F : Type} (perform : LightCall F → LightState V → Option (LightState V))
    (one : F) (persisted : Option (LightStateRTCState F)) (self : LightState V) :
    SetupResult V F :=
  let hooks : List SetupHook :=
    SetupHook.setup_state ::
      (List.range self.effects_.length).map (fun k => SetupHook.effect_init (k + 1))
  let recovery := setup_recover one self.restore_mode_ persisted
  let call := setup_call recovery.recovered
  ⟨hooks, recovery, call, perform call self⟩

/-! ### Requests together with `add_effects` -/

/-- A request or tick, or a call of `add_effects`. -/
inductive Operation (V : Type) where
  | request (r : Request V)
  | add_effects (effects : List (LightEffect V))

/-- One operation performed on a state; `none` when it is undefined. -/
def Operation.perform {V : Type} (lerp : V → V → Nat → Nat → V) :
    Operation V → LightState V → Option (LightState V)
  | Operation.request r, s => r.perform lerp s
  | Operation.add_effects effects, s => some (LightState.add_effects effects s)

/-- Operations performed one after the other; `none` as soon as one of them is undefined. -/
def Operation.run {V : Type} (lerp : V → V → Nat → Nat → V) :
    List (Operation V) → LightState V → Option (LightState V)
  | [], s => some s
  | o :: os, s =>
    match o.perform lerp s with
    | some t => Operation.run lerp os t
    | none => none

/-- The caller contract of `start_effect_`: the index is at most the number of effects; every
other operation qualifies. -/
def Operation.index_in_range {V : Type} : Operation V → LightState V → Prop
  | Operation.request (Request.start_effect_ k), s => k ≤ s.effects_.length
  | _, _ => True

/-- Every operation of the run satisfies `Operation.index_in_range` in the state it is
performed in. -/
def Operation.all_in_range {V : Type} (lerp : V → V → Nat → Nat → V) :
    List (Operation V) → LightState V → Prop
  | [], _ => True
  | o :: os, s =>
    o.index_in_range s ∧
      match o.perform lerp s with
      | some t => Operation.all_in_range lerp os t
      | none => True

/-- The state `flashRunning` with two "remote changed" callbacks and one "target reached"
callback registered. -/
def flashObserved : LightState Nat :=
  LightState.add_new_target_state_reached_callback
    (LightState.add_new_remote_values_callback
      (LightState.add_new_remote_values_callback flashRunning))

/-- The constructed state with value 0 after `add_effects` of two effects, "Pulse" (whose
`apply` adds 1 to the value) and "Strobe" (whose `apply` leaves it). -/
def twoEffects : LightState Nat :=
  LightState.add_effects [⟨"Pulse", fun v => v + 1⟩, ⟨"Strobe", fun v => v⟩]
    (LightState.init 0 LightRestoreMode.LIGHT_RESTORE_DEFAULT_OFF)

/-- A concrete run of operations on `Nat` values: start effect 2, a tick at time 1, a
transition, a tick at time 2, `add_effects` of a third effect, start effect 3, stop. -/
def effectRun : List (Operation Nat) :=
  [Operation.request (Request.start_effect_ 2), Operation.request (Request.loop 1),
    Operation.request (Request.start_transition_ 1 9 10), Operation.request (Request.loop 2),
    Operation.add_effects [⟨"Flicker", fun v => v⟩],
    Operation.request (Request.start_effect_ 3), Operation.request Request.stop_effect_]

/-! ### The round trip through the gamma tables -/

/-- The round trip of index `i` through the tables built by `calculate_gamma_table(gamma)`:
`gamma_reverse_table_[gamma_table_[i]]`. -/
def gamma_roundtrip {F : Type} (h : ColorHelpers F) (gamma : F) (self : ESPColorCorrection)
    (i : Nat) : Nat :=
  (calculate_gamma_table h gamma self).gamma_reverse_table_
    ((calculate_gamma_table h gamma self).gamma_table_ i)

/-- The test counted by `ExactReal.round8`: `n - 1/2 ≤ 255 x` for `x = (num/den)^(pn/pd)`. -/
def ExactReal.reaches (x : ExactReal) (n : Nat) : Bool :=
  decide ((2 * n - 1) ^ x.pd * x.den ^ x.pn ≤ 510 ^ x.pd * x.num ^ x.pn)

/-- Bisection for the largest `n` in `lo .. hi - 1` that the value reaches; it proposes the
rounded value, which `roundtrip_check` then checks. -/
def ExactReal.bisect (x : ExactReal) : Nat → Nat → Nat → Nat
  | 0, lo, _ => lo
  | fuel + 1, lo, hi =>
    if hi ≤ lo + 1 then lo
    else if x.reaches ((lo + hi) / 2) then x.bisect fuel ((lo + hi) / 2) hi
    else x.bisect fuel lo ((lo + hi) / 2)

/-- The check that `y` is the rounded forward entry `round8((i/255)^(p/q) × 255)` and that
the rounded reverse entry of `y`, `round8((y/255)^(q/p) × 255)` (0 for `y = 0`), is within
one step of `i`. -/
def roundtrip_check (p q i y : Nat) : Bool :=
  decide (y ≤ 255) &&
  (decide (y = 0) || (ExactReal.mk i 255 p q).reaches y) &&
  (decide (y = 255) || !(ExactReal.mk i 255 p q).reaches (y + 1)) &&
  (decide (i ≤ 1) || (decide (1 ≤ y) && (ExactReal.mk y 255 q p).reaches (i - 1))) &&
  (decide (254 ≤ i) || decide (y = 0) || !(ExactReal.mk y 255 q p).reaches (i + 2))

/-- The check of every index from `lo` to 255 for gamma `p / q`, the forward entry being
proposed by bisection. -/
def roundtrip_check_from (p q lo : Nat) : Bool :=
  (List.range 256).all (fun i =>
    decide (i < lo) || roundtrip_check p q i ((ExactReal.mk i 255 p q).bisect 9 0 256))

/-! # Theorems -/

/-! ### Generic facts about table loops -/

theorem foldl_store_proj {σ : Type} (body : Nat → σ → σ) (p : σ → Nat → Nat) (f : Nat → Nat)
    (I : σ → Prop) (hI : ∀ i s, I s → I (body i s))
    (hp : ∀ i s, I s → p (body i s) = store (p s) i (f i))
    (l : List Nat) (s : σ) (h0 : I s) (k : Nat) :
    I (l.foldl (fun acc i => body i acc) s) ∧
    p (l.foldl (fun acc i => body i acc) s) k = if k ∈ l then f k % 256 else p s k := by
  induction l generalizing s with
  | nil => simp [h0]
  | cons a l ih =>
    obtain ⟨h1, h2⟩ := ih (body a s) (hI a s h0)
    refine ⟨h1, ?_⟩
    rw [List.foldl_cons, h2, hp a s h0]
    by_cases hk : k ∈ l
    · simp [hk]
    · by_cases hka : k = a
      · subst hka; simp [hk, store]
      · simp [hk, hka, store]

theorem foldl_const_proj {σ β : Type} (body : Nat → σ → σ) (q : σ → β)
    (hq : ∀ i s, q (body i s) = q s) (l : List Nat) (s : σ) :
    q (l.foldl (fun acc i => body i acc) s) = q s := by
  induction l generalizing s with
  | nil => rfl
  | cons a l ih => rw [List.foldl_cons, ih, hq]

theorem forRange_store {σ : Type} (body : Nat → σ → σ) (p : σ → Nat → Nat) (f : Nat → Nat)
    (I : σ → Prop) (hI : ∀ i s, I s → I (body i s))
    (hp : ∀ i s, I s → p (body i s) = store (p s) i (f i))
    (lo hi : Nat) (s : σ) (h0 : I s) (k : Nat) :
    p (forRange lo hi body s) k = if lo ≤ k ∧ k < hi then f k % 256 else p s k := by
  unfold forRange
  rw [(foldl_store_proj body p f I hI hp _ s h0 k).2]
  by_cases hk : lo ≤ k ∧ k < hi
  · have : k ∈ List.range' lo (hi - lo) := by
      rw [List.mem_range']; exact ⟨k - lo, by omega, by omega⟩
    simp [hk, this]
  · have : ¬ k ∈ List.range' lo (hi - lo) := by
      rw [List.mem_range']; rintro ⟨j, hj, rfl⟩; omega
    simp [hk, this]

theorem forRange_const {σ β : Type} (body : Nat → σ → σ) (q : σ → β)
    (hq : ∀ i s, q (body i s) = q s) (lo hi : Nat) (s : σ) :
    q (forRange lo hi body s) = q s :=
  foldl_const_proj body q hq _ s

/-! ### What each builder leaves in the tables -/

theorem gamma_table_spec {F : Type} (h : ColorHelpers F) (gamma : F)
    (self : ESPColorCorrection) (k : Nat) :
    (calculate_gamma_table h gamma self).gamma_table_ k =
      if k = 0 then 0
      else if k < 256 then h.to_uint8_scale (h.gamma_correct (h.div255 k) gamma) % 256
      else self.gamma_table_ k := by
  have h1 : ∀ s : ESPColorCorrection, (forRange 1 256 (gamma_step h gamma) s).gamma_table_ k =
      if 1 ≤ k ∧ k < 256 then h.to_uint8_scale (h.gamma_correct (h.div255 k) gamma) % 256
      else s.gamma_table_ k := fun s =>
    forRange_store (gamma_step h gamma) (fun s => s.gamma_table_)
      (fun i => h.to_uint8_scale (h.gamma_correct (h.div255 i) gamma)) (fun _ => True)
      (fun _ _ _ => trivial) (fun _ _ _ => rfl) 1 256 s trivial k
  have h2 : ∀ s : ESPColorCorrection,
      (forRange 0 256 gamma_reverse_identity_step s).gamma_table_ = s.gamma_table_ := fun s =>
    forRange_const gamma_reverse_identity_step (fun s => s.gamma_table_) (fun _ _ => rfl) 0 256 s
  have h3 : ∀ s : ESPColorCorrection,
      (forRange 1 256 (gamma_reverse_step h gamma) s).gamma_table_ = s.gamma_table_ := fun s =>
    forRange_const (gamma_reverse_step h gamma) (fun s => s.gamma_table_) (fun _ _ => rfl) 1 256 s
  unfold calculate_gamma_table
  simp only []
  split
  · rw [h2, h1]
    by_cases hk0 : k = 0
    · subst hk0; simp [store]
    · by_cases hk : k < 256
      · have : 1 ≤ k := by omega
        simp [hk0, hk, this]
      · simp [hk0, hk, store]
  · rw [h3]
    simp only []
    rw [h1]
    by_cases hk0 : k = 0
    · subst hk0; simp [store]
    · by_cases hk : k < 256
      · have : 1 ≤ k := by omega
        simp [hk0, hk, this]
      · simp [hk0, hk, store]

theorem gamma_reverse_table_spec {F : Type} (h : ColorHelpers F) (gamma : F)
    (self : ESPColorCorrection) (k : Nat) :
    (calculate_gamma_table h gamma self).gamma_reverse_table_ k =
      if h.is_zero gamma = true then
        (if k < 256 then k else self.gamma_reverse_table_ k)
      else if k = 0 then 0
      else if k < 256 then h.to_uint8_scale (h.gamma_uncorrect (h.div255 k) gamma) % 256
      else self.gamma_reverse_table_ k := by
  have h1 : ∀ s : ESPColorCorrection,
      (forRange 1 256 (gamma_step h gamma) s).gamma_reverse_table_ = s.gamma_reverse_table_ :=
    fun s => forRange_const (gamma_step h gamma) (fun s => s.gamma_reverse_table_)
      (fun _ _ => rfl) 1 256 s
  have h2 : ∀ s : ESPColorCorrection,
      (forRange 0 256 gamma_reverse_identity_step s).gamma_reverse_table_ k =
        if 0 ≤ k ∧ k < 256 then k % 256 else s.gamma_reverse_table_ k := fun s =>
    forRange_store gamma_reverse_identity_step (fun s => s.gamma_reverse_table_)
      (fun i => i) (fun _ => True) (fun _ _ _ => trivial) (fun _ _ _ => rfl) 0 256 s trivial k
  have h3 : ∀ s : ESPColorCorrection,
      (forRange 1 256 (gamma_reverse_step h gamma) s).gamma_reverse_table_ k =
        if 1 ≤ k ∧ k < 256 then h.to_uint8_scale (h.gamma_uncorrect (h.div255 k) gamma) % 256
        else s.gamma_reverse_table_ k := fun s =>
    forRange_store (gamma_reverse_step h gamma) (fun s => s.gamma_reverse_table_)
      (fun i => h.to_uint8_scale (h.gamma_uncorrect (h.div255 i) gamma)) (fun _ => True)
      (fun _ _ _ => trivial) (fun _ _ _ => rfl) 1 256 s trivial k
  unfold calculate_gamma_table
  simp only []
  split
  · rename_i hz
    rw [h2, h1]
    by_cases hk : k < 256
    · simp [hz, hk, Nat.mod_eq_of_lt hk]
    · simp [hz, hk]
  · rename_i hz
    rw [h3]
    simp only []
    rw [h1]
    by_cases hk0 : k = 0
    · subst hk0; simp [hz, store]
    · by_cases hk : k < 256
      · have : 1 ≤ k := by omega
        simp [hz, hk0, hk, this]
      · simp [hz, hk0, hk, store]

theorem brightness_table_spec {F : Type} (h : ColorHelpers F) (mn mx : F)
    (self : ESPColorCorrection) (k : Nat) :
    (calculate_brightness_table h mn mx self).brightness_table_ k =
      if k < 256 then h.to_uint8_scale (h.brightness_correct (h.div255 k) mn mx) % 256
      else self.brightness_table_ k := by
  unfold calculate_brightness_table
  simp only []
  rw [forRange_const (brightness_reverse_step h mn mx) (fun s => s.brightness_table_)
    (fun _ _ => rfl) 0 256]
  rw [forRange_store (brightness_step h mn mx) (fun s => s.brightness_table_)
    (fun i => h.to_uint8_scale (h.brightness_correct (h.div255 i) mn mx)) (fun _ => True)
    (fun _ _ _ => trivial) (fun _ _ _ => rfl) 0 256 self trivial k]
  simp

theorem brightness_reverse_table_spec {F : Type} (h : ColorHelpers F) (mn mx : F)
    (self : ESPColorCorrection) (k : Nat) :
    (calculate_brightness_table h mn mx self).brightness_reverse_table_ k =
      if k < 256 then h.to_uint8_scale (h.brightness_uncorrect (h.div255 k) mn mx) % 256
      else self.brightness_reverse_table_ k := by
  unfold calculate_brightness_table
  simp only []
  rw [forRange_store (brightness_reverse_step h mn mx) (fun s => s.brightness_reverse_table_)
    (fun i => h.to_uint8_scale (h.brightness_uncorrect (h.div255 i) mn mx)) (fun _ => True)
    (fun _ _ _ => trivial) (fun _ _ _ => rfl) 0 256 _ trivial k]
  rw [forRange_const (brightness_step h mn mx) (fun s => s.brightness_reverse_table_)
    (fun _ _ => rfl) 0 256]
  simp

theorem brightness_keeps_gamma {F : Type} (h : ColorHelpers F) (mn mx : F)
    (self : ESPColorCorrection) :
    (calculate_brightness_table h mn mx self).gamma_table_ = self.gamma_table_ ∧
    (calculate_brightness_table h mn mx self).gamma_reverse_table_ =
      self.gamma_reverse_table_ := by
  unfold calculate_brightness_table
  simp only []
  constructor
  · rw [forRange_const (brightness_reverse_step h mn mx) (fun s => s.gamma_table_)
      (fun _ _ => rfl) 0 256,
      forRange_const (brightness_step h mn mx) (fun s => s.gamma_table_) (fun _ _ => rfl) 0 256]
  · rw [forRange_const (brightness_reverse_step h mn mx) (fun s => s.gamma_reverse_table_)
      (fun _ _ => rfl) 0 256,
      forRange_const (brightness_step h mn mx) (fun s => s.gamma_reverse_table_)
      (fun _ _ => rfl) 0 256]

/-- The composing loop leaves the four component tables alone and writes both composed
tables at every index below 256. -/
theorem correction_loop_spec (s : ESPColorCorrection) :
    (forRange 0 256 correction_step s).gamma_table_ = s.gamma_table_ ∧
    (forRange 0 256 correction_step s).gamma_reverse_table_ = s.gamma_reverse_table_ ∧
    (forRange 0 256 correction_step s).brightness_table_ = s.brightness_table_ ∧
    (forRange 0 256 correction_step s).brightness_reverse_table_ =
      s.brightness_reverse_table_ ∧
    (∀ k, (forRange 0 256 correction_step s).correction_table_ k =
      if k < 256 then s.gamma_table_ (s.brightness_table_ k) % 256
      else s.correction_table_ k) ∧
    (∀ k, (forRange 0 256 correction_step s).correction_reverse_table_ k =
      if k < 256 then s.gamma_reverse_table_ (s.brightness_reverse_table_ k) % 256
      else s.correction_reverse_table_ k) := by
  refine ⟨forRange_const correction_step (fun s => s.gamma_table_) (fun _ _ => rfl) 0 256 s,
    forRange_const correction_step (fun s => s.gamma_reverse_table_) (fun _ _ => rfl) 0 256 s,
    forRange_const correction_step (fun s => s.brightness_table_) (fun _ _ => rfl) 0 256 s,
    forRange_const correction_step (fun s => s.brightness_reverse_table_)
      (fun _ _ => rfl) 0 256 s, ?_, ?_⟩
  · intro k
    rw [forRange_store correction_step (fun s => s.correction_table_)
      (fun i => s.gamma_table_ (s.brightness_table_ i))
      (fun t => t.gamma_table_ = s.gamma_table_ ∧ t.brightness_table_ = s.brightness_table_)
      (fun _ _ ht => ht)
      (fun i t ht => by
        show store t.correction_table_ i (t.gamma_table_ (t.brightness_table_ i)) = _
        rw [ht.1, ht.2])
      0 256 s ⟨rfl, rfl⟩ k]
    simp
  · intro k
    rw [forRange_store correction_step (fun s => s.correction_reverse_table_)
      (fun i => s.gamma_reverse_table_ (s.brightness_reverse_table_ i))
      (fun t => t.gamma_reverse_table_ = s.gamma_reverse_table_ ∧
        t.brightness_reverse_table_ = s.brightness_reverse_table_)
      (fun _ _ ht => ht)
      (fun i t ht => by
        show store t.correction_reverse_table_ i
          (t.gamma_reverse_table_ (t.brightness_reverse_table_ i)) = _
        rw [ht.1, ht.2])
      0 256 s ⟨rfl, rfl⟩ k]
    simp

/-- Every entry below 256 of the gamma tables is an 8-bit value after the builder ran. -/
theorem gamma_tables_lt {F : Type} (h : ColorHelpers F) (gamma : F)
    (self : ESPColorCorrection) (k : Nat) (hk : k < 256) :
    (calculate_gamma_table h gamma self).gamma_table_ k < 256 ∧
    (calculate_gamma_table h gamma self).gamma_reverse_table_ k < 256 := by
  rw [gamma_table_spec, gamma_reverse_table_spec]
  refine ⟨?_, ?_⟩
  · split
    · omega
    · exact Nat.mod_lt _ (by norm_num)
  · split
    · exact hk
    · split
      · omega
      · exact Nat.mod_lt _ (by norm_num)

/-! ## Theorems about the colour correction tables -/

/-- The composed tables in terms of the component tables, entry by entry. -/
theorem correction_table_spec {F : Type} (h : ColorHelpers F)
    (gamma min_brightness max_brightness : F) (self other : ESPColorCorrection)
    (i : Nat) (hi : i < 256) :
    (calculate_correction_table h gamma min_brightness max_brightness self).correction_table_ i =
      (calculate_gamma_table h gamma other).gamma_table_
        ((calculate_brightness_table h min_brightness max_brightness other).brightness_table_ i) ∧
    (calculate_correction_table h gamma min_brightness max_brightness
        self).correction_reverse_table_ i =
      (calculate_gamma_table h gamma other).gamma_reverse_table_
        ((calculate_brightness_table h min_brightness max_brightness
          other).brightness_reverse_table_ i) ∧
    (calculate_brightness_table h min_brightness max_brightness other).brightness_table_ i
      < 256 ∧
    (calculate_brightness_table h min_brightness max_brightness other).brightness_reverse_table_ i
      < 256 ∧
    (calculate_correction_table h gamma min_brightness max_brightness self).gamma_table_ i =
      (calculate_gamma_table h gamma other).gamma_table_ i ∧
    (calculate_correction_table h gamma min_brightness max_brightness
        self).gamma_reverse_table_ i =
      (calculate_gamma_table h gamma other).gamma_reverse_table_ i ∧
    (calculate_correction_table h gamma min_brightness max_brightness self).brightness_table_ i =
      (calculate_brightness_table h min_brightness max_brightness other).brightness_table_ i ∧
    (calculate_correction_table h gamma min_brightness max_brightness
        self).brightness_reverse_table_ i =
      (calculate_brightness_table h min_brightness max_brightness
        other).brightness_reverse_table_ i := by
  have hb : ∀ s : ESPColorCorrection,
      (calculate_brightness_table h min_brightness max_brightness s).brightness_table_ i =
        h.to_uint8_scale (h.brightness_correct (h.div255 i) min_brightness max_brightness)
          % 256 := fun s => by rw [brightness_table_spec, if_pos hi]
  have hbr : ∀ s : ESPColorCorrection,
      (calculate_brightness_table h min_brightness max_brightness s).brightness_reverse_table_ i =
        h.to_uint8_scale (h.brightness_uncorrect (h.div255 i) min_brightness max_brightness)
          % 256 := fun s => by rw [brightness_reverse_table_spec, if_pos hi]
  have hlt : ∀ n : Nat, n % 256 < 256 := fun n => Nat.mod_lt n (by norm_num)
  have hg : ∀ k, k < 256 → ∀ s : ESPColorCorrection,
      (calculate_gamma_table h gamma s).gamma_table_ k =
        (calculate_gamma_table h gamma other).gamma_table_ k := fun k hk s => by
    simp only [gamma_table_spec, if_pos hk]
  have hgr : ∀ k, k < 256 → ∀ s : ESPColorCorrection,
      (calculate_gamma_table h gamma s).gamma_reverse_table_ k =
        (calculate_gamma_table h gamma other).gamma_reverse_table_ k := fun k hk s => by
    simp only [gamma_reverse_table_spec, if_pos hk]
  obtain ⟨c1, c2, c3, c4, c5, c6⟩ := correction_loop_spec
    (calculate_brightness_table h min_brightness max_brightness
      (calculate_gamma_table h gamma self))
  obtain ⟨k1, k2⟩ := brightness_keeps_gamma h min_brightness max_brightness
    (calculate_gamma_table h gamma self)
  unfold calculate_correction_table
  simp only []
  rw [c5 i, c6 i, c1, c2, c3, c4, if_pos hi, if_pos hi, k1, k2, hb, hbr, hb other, hbr other]
  refine ⟨?_, ?_, hlt _, hlt _, hg i hi self, hgr i hi self, rfl, rfl⟩
  · rw [hg _ (hlt _) self]
    exact Nat.mod_eq_of_lt (gamma_tables_lt h gamma other _ (hlt _)).1
  · rw [hgr _ (hlt _) self]
    exact Nat.mod_eq_of_lt (gamma_tables_lt h gamma other _ (hlt _)).2

/-- C1. After `calculate_correction_table(gamma, min_brightness, max_brightness)`, run on any
object, every index `i` in `0..255` satisfies
`correction_table[i] = gamma_table[brightness_table[i]]` and
`correction_reverse_table[i] = gamma_reverse_table[brightness_reverse_table[i]]`, where the
component tables are those that `calculate_gamma_table(gamma)` and
`calculate_brightness_table(min_brightness, max_brightness)` produce (on any object), the
component tables held by the object afterwards are those same tables, and both lookup
indices `brightness_table[i]` and `brightness_reverse_table[i]` are below 256. -/
theorem correction_table_is_composition {F : Type} (h : ColorHelpers F)
    (gamma min_brightness max_brightness : F) (self other : ESPColorCorrection)
    (i : Nat) (hi : i < 256) :
    (calculate_correction_table h gamma min_brightness max_brightness self).correction_table_ i =
      (calculate_gamma_table h gamma other).gamma_table_
        ((calculate_brightness_table h min_brightness max_brightness other).brightness_table_ i) ∧
    (calculate_correction_table h gamma min_brightness max_brightness
        self).correction_reverse_table_ i =
      (calculate_gamma_table h gamma other).gamma_reverse_table_
        ((calculate_brightness_table h min_brightness max_brightness
          other).brightness_reverse_table_ i) ∧
    (calculate_brightness_table h min_brightness max_brightness other).brightness_table_ i
      < 256 ∧
    (calculate_brightness_table h min_brightness max_brightness other).brightness_reverse_table_ i
      < 256 ∧
    (calculate_correction_table h gamma min_brightness max_brightness self).gamma_table_ i =
      (calculate_gamma_table h gamma other).gamma_table_ i ∧
    (calculate_correction_table h gamma min_brightness max_brightness
        self).gamma_reverse_table_ i =
      (calculate_gamma_table h gamma other).gamma_reverse_table_ i ∧
    (calculate_correction_table h gamma min_brightness max_brightness self).brightness_table_ i =
      (calculate_brightness_table h min_brightness max_brightness other).brightness_table_ i ∧
    (calculate_correction_table h gamma min_brightness max_brightness
        self).brightness_reverse_table_ i =
      (calculate_brightness_table h min_brightness max_brightness
        other).brightness_reverse_table_ i :=
  correction_table_spec h gamma min_brightness max_brightness self other i hi

/-- Witness of C1: the exact-arithmetic helpers with gamma = 2.2, brightness range `[0, 1]`,
at index 255. -/
theorem correction_table_is_composition_witness :
    255 < 256 ∧
    (calculate_correction_table exactHelpers (ExactReal.frac 11 5) (ExactReal.frac 0 1)
        (ExactReal.frac 1 1) zeroTables).correction_table_ 255 =
      (calculate_gamma_table exactHelpers (ExactReal.frac 11 5) zeroTables).gamma_table_
        ((calculate_brightness_table exactHelpers (ExactReal.frac 0 1) (ExactReal.frac 1 1)
          zeroTables).brightness_table_ 255) :=
  ⟨by decide,
    (correction_table_is_composition exactHelpers (ExactReal.frac 11 5) (ExactReal.frac 0 1)
      (ExactReal.frac 1 1) zeroTables zeroTables 255 (by decide)).1⟩

/-- C2. `calculate_gamma_table` always stores `gamma_table[0] = 0`. When `gamma == 0` the
reverse table is the identity on `0..255`, and the result does not depend on `gamma_uncorrect`
at all (the inverse exponent is never evaluated). When `gamma != 0`, `gamma_reverse_table[0] = 0`
and for `i` in `1..255` the entry is `to_uint8_scale(gamma_uncorrect(i / 255, gamma))`, the
8-bit rounding of `(i/255)^(1/gamma) * 255`. -/
theorem gamma_table_zero_gamma_identity {F : Type} (h : ColorHelpers F) (gamma : F)
    (self : ESPColorCorrection) :
    (calculate_gamma_table h gamma self).gamma_table_ 0 = 0 ∧
    (h.is_zero gamma = true →
      (∀ i, i < 256 → (calculate_gamma_table h gamma self).gamma_reverse_table_ i = i) ∧
      (∀ u : F → F → F,
        calculate_gamma_table { h with gamma_uncorrect := u } gamma self =
          calculate_gamma_table h gamma self)) ∧
    (h.is_zero gamma = false →
      (calculate_gamma_table h gamma self).gamma_reverse_table_ 0 = 0 ∧
      (∀ i, 1 ≤ i → i < 256 →
        (calculate_gamma_table h gamma self).gamma_reverse_table_ i =
          h.to_uint8_scale (h.gamma_uncorrect (h.div255 i) gamma) % 256)) := by
  refine ⟨by rw [gamma_table_spec, if_pos rfl], fun hz => ⟨fun i hi => ?_, fun u => ?_⟩,
    fun hz => ⟨?_, fun i h1 hi => ?_⟩⟩
  · rw [gamma_reverse_table_spec, if_pos hz, if_pos hi]
  · unfold calculate_gamma_table
    simp only [hz, if_true]
    rfl
  · rw [gamma_reverse_table_spec, if_neg (by simp [hz]), if_pos rfl]
  · rw [gamma_reverse_table_spec, if_neg (by simp [hz]), if_neg (by omega), if_pos hi]

/-- Witness of C2: with the exact-arithmetic helpers, gamma = 0 gives the identity at index 7,
and gamma = 2 gives `gamma_reverse_table[0] = 0`. -/
theorem gamma_table_zero_gamma_identity_witness :
    exactHelpers.is_zero (ExactReal.frac 0 1) = true ∧
    (calculate_gamma_table exactHelpers (ExactReal.frac 0 1) zeroTables).gamma_reverse_table_ 7
      = 7 ∧
    exactHelpers.is_zero (ExactReal.frac 2 1) = false ∧
    (calculate_gamma_table exactHelpers (ExactReal.frac 2 1) zeroTables).gamma_reverse_table_ 0
      = 0 :=
  ⟨rfl,
    ((gamma_table_zero_gamma_identity exactHelpers (ExactReal.frac 0 1) zeroTables).2.1 rfl).1
      7 (by decide),
    rfl,
    ((gamma_table_zero_gamma_identity exactHelpers (ExactReal.frac 2 1) zeroTables).2.2 rfl).1⟩

set_option maxRecDepth 100000 in
/-- The exact forward gamma table for gamma = 2 sends 10 to 0: `(10/255)^2 * 255 < 1/2`. -/
theorem exact_gamma2_forward_10 :
    (calculate_gamma_table exactHelpers (ExactReal.frac 2 1) zeroTables).gamma_table_ 10 = 0 := by
  rw [gamma_table_spec]
  decide

/-- Counterexample to C3: with exact arithmetic and gamma = 2, the round trip of index 10 is
`gamma_reverse_table[gamma_table[10]] = gamma_reverse_table[0] = 0`, ten steps away from 10. -/
theorem gamma_roundtrip_off_by_ten :
    (calculate_gamma_table exactHelpers (ExactReal.frac 2 1) zeroTables).gamma_reverse_table_
      ((calculate_gamma_table exactHelpers (ExactReal.frac 2 1) zeroTables).gamma_table_ 10)
      = 0 ∧
    ¬ (10 - (calculate_gamma_table exactHelpers (ExactReal.frac 2 1)
        zeroTables).gamma_reverse_table_
      ((calculate_gamma_table exactHelpers (ExactReal.frac 2 1) zeroTables).gamma_table_ 10)
      ≤ 1) := by
  rw [exact_gamma2_forward_10, gamma_reverse_table_spec]
  decide

/-! ### The round trip in exact arithmetic -/

/-- Tangent bound of a power with exponent at least one on the unit interval. -/
theorem rpow_step_le (s a b : ℝ) (hs : 1 ≤ s) (ha : 0 ≤ a) (hab : a ≤ b) (hb : b ≤ 1) :
    b ^ s ≤ a ^ s + s * (b - a) := by
  rcases eq_or_lt_of_le (ha.trans hab) with h0 | hb0
  · have hb' : b = 0 := h0.symm
    have ha' : a = 0 := le_antisymm (hb' ▸ hab) ha
    subst hb' ha'
    simp
  · have hbern := one_add_mul_self_le_rpow_one_add (s := a / b - 1)
      (by have : 0 ≤ a / b := div_nonneg ha hb0.le; linarith) hs
    have hsum : 1 + (a / b - 1) = a / b := by ring
    rw [hsum, Real.div_rpow ha hb0.le] at hbern
    have hbs : 0 < b ^ s := Real.rpow_pos_of_pos hb0 s
    have hbs1 : b ^ s ≤ b := by
      have := Real.rpow_le_rpow_of_exponent_ge hb0 hb hs
      simpa using this
    have h1 : (1 + s * (a / b - 1)) * b ^ s ≤ a ^ s := by
      have := mul_le_mul_of_nonneg_right hbern hbs.le
      rwa [div_mul_cancel₀ _ hbs.ne'] at this
    have h2 : s * (1 - a / b) * b ^ s ≤ s * (b - a) := by
      have hfrac : 0 ≤ s * (1 - a / b) := by
        apply mul_nonneg (by linarith)
        have : a / b ≤ 1 := (div_le_one hb0).mpr hab
        linarith
      calc s * (1 - a / b) * b ^ s ≤ s * (1 - a / b) * b :=
            mul_le_mul_of_nonneg_left hbs1 hfrac
        _ = s * (b - a) := by field_simp
    nlinarith [h1, h2]

/-- From an inequality of natural powers to the power with the quotient exponent. -/
theorem rpow_quot_le (p q : ℕ) (hp : 0 < p) (A B : ℝ) (hA : 0 ≤ A) (hB : 0 ≤ B)
    (h : A ^ q ≤ B ^ p) : A ^ ((q : ℝ) / (p : ℝ)) ≤ B := by
  have hp' : p ≠ 0 := by omega
  have e1 : A ^ ((q : ℝ) / (p : ℝ)) = (A ^ q) ^ ((p : ℝ)⁻¹) := by
    rw [div_eq_mul_inv, Real.rpow_mul hA, Real.rpow_natCast]
  have e2 : B = (B ^ p) ^ ((p : ℝ)⁻¹) := (Real.pow_rpow_inv_natCast hB hp').symm
  rw [e1, e2]
  exact Real.rpow_le_rpow (pow_nonneg hA q) h (by positivity)

/-- The converse direction of `rpow_quot_le`. -/
theorem le_rpow_quot (p q : ℕ) (hp : 0 < p) (A B : ℝ) (hA : 0 ≤ A) (hB : 0 ≤ B)
    (h : B ^ p ≤ A ^ q) : B ≤ A ^ ((q : ℝ) / (p : ℝ)) := by
  have hp' : p ≠ 0 := by omega
  have e1 : A ^ ((q : ℝ) / (p : ℝ)) = (A ^ q) ^ ((p : ℝ)⁻¹) := by
    rw [div_eq_mul_inv, Real.rpow_mul hA, Real.rpow_natCast]
  have e2 : B = (B ^ p) ^ ((p : ℝ)⁻¹) := (Real.pow_rpow_inv_natCast hB hp').symm
  rw [e1, e2]
  exact Real.rpow_le_rpow (pow_nonneg hB p) h (by positivity)

/-- The strict form of `rpow_quot_le`. -/
theorem rpow_quot_lt (p q : ℕ) (hp : 0 < p) (A B : ℝ) (hA : 0 ≤ A) (hB : 0 ≤ B)
    (h : A ^ q < B ^ p) : A ^ ((q : ℝ) / (p : ℝ)) < B := by
  have hp' : p ≠ 0 := by omega
  have e1 : A ^ ((q : ℝ) / (p : ℝ)) = (A ^ q) ^ ((p : ℝ)⁻¹) := by
    rw [div_eq_mul_inv, Real.rpow_mul hA, Real.rpow_natCast]
  have e2 : B = (B ^ p) ^ ((p : ℝ)⁻¹) := (Real.pow_rpow_inv_natCast hB hp').symm
  rw [e1, e2]
  exact Real.rpow_lt_rpow (pow_nonneg hA q) h (by positivity)

/-- The strict form of `le_rpow_quot`. -/
theorem lt_rpow_quot (p q : ℕ) (hp : 0 < p) (A B : ℝ) (hA : 0 ≤ A) (hB : 0 ≤ B)
    (h : B ^ p < A ^ q) : B < A ^ ((q : ℝ) / (p : ℝ)) := by
  have hp' : p ≠ 0 := by omega
  have e1 : A ^ ((q : ℝ) / (p : ℝ)) = (A ^ q) ^ ((p : ℝ)⁻¹) := by
    rw [div_eq_mul_inv, Real.rpow_mul hA, Real.rpow_natCast]
  have e2 : B = (B ^ p) ^ ((p : ℝ)⁻¹) := (Real.pow_rpow_inv_natCast hB hp').symm
  rw [e1, e2]
  exact Real.rpow_lt_rpow (pow_nonneg hB p) h (by positivity)

/-- No forward entry overshoots: the two rounding inequalities cannot hold together when
`1/3 < p/q ≤ 1`. -/
theorem roundtrip_real_upper (p q : ℕ) (hp : 0 < p) (hpq : p ≤ q) (hq3 : q < 3 * p)
    (X U δ : ℝ) (hδ : 0 < δ) (hU0 : δ ≤ U) (hU1 : U ≤ 1) (hX : 0 ≤ X)
    (h1 : (U - δ) ^ q ≤ X ^ p) (h2 : (X + 3 * δ) ^ p ≤ U ^ q) : False := by
  have hpR : (0 : ℝ) < p := by exact_mod_cast hp
  have hs : (1 : ℝ) ≤ (q : ℝ) / (p : ℝ) := by
    rw [le_div_iff₀ hpR]; simpa using (by exact_mod_cast hpq : (p : ℝ) ≤ q)
  have hs3 : (q : ℝ) / (p : ℝ) < 3 := by
    rw [div_lt_iff₀ hpR]; exact_mod_cast hq3
  have a1 := rpow_quot_le p q hp (U - δ) X (by linarith) hX h1
  have a2 := le_rpow_quot p q hp U (X + 3 * δ) (by linarith) (by linarith) h2
  have a3 := rpow_step_le ((q : ℝ) / (p : ℝ)) (U - δ) U hs (by linarith) (by linarith) hU1
  have : (q : ℝ) / (p : ℝ) * (U - (U - δ)) < 3 * δ := by
    have : U - (U - δ) = δ := by ring
    rw [this]
    exact mul_lt_mul_of_pos_right hs3 hδ
  linarith

/-- No forward entry undershoots: the two rounding inequalities cannot hold together when
`1/3 < p/q ≤ 1`. -/
theorem roundtrip_real_lower (p q : ℕ) (hp : 0 < p) (hpq : p ≤ q) (hq3 : q < 3 * p)
    (X U δ : ℝ) (hδ : 0 < δ) (hU0 : 0 ≤ U) (hU1 : U + δ ≤ 1) (hX : 3 * δ ≤ X)
    (h1 : X ^ p < (U + δ) ^ q) (h2 : U ^ q < (X - 3 * δ) ^ p) : False := by
  have hpR : (0 : ℝ) < p := by exact_mod_cast hp
  have hs : (1 : ℝ) ≤ (q : ℝ) / (p : ℝ) := by
    rw [le_div_iff₀ hpR]; simpa using (by exact_mod_cast hpq : (p : ℝ) ≤ q)
  have hs3 : (q : ℝ) / (p : ℝ) < 3 := by
    rw [div_lt_iff₀ hpR]; exact_mod_cast hq3
  have a1 := lt_rpow_quot p q hp (U + δ) X (by linarith) (by linarith) h1
  have a2 := rpow_quot_lt p q hp U (X - 3 * δ) hU0 (by linarith) h2
  have a3 := rpow_step_le ((q : ℝ) / (p : ℝ)) U (U + δ) hs hU0 (by linarith) hU1
  have : (q : ℝ) / (p : ℝ) * (U + δ - U) < 3 * δ := by
    have : U + δ - U = δ := by ring
    rw [this]
    exact mul_lt_mul_of_pos_right hs3 hδ
  linarith

/-- The number of `n` in `1 .. N - 1` satisfying a downward closed test is the largest such
`n`: it is at least `m` exactly when `m` passes. -/
theorem count_antitone (P : Nat → Prop) [DecidablePred P]
    (hanti : ∀ n m, 1 ≤ n → n ≤ m → P m → P n) (N : Nat) :
    ∀ m, 1 ≤ m →
      (m ≤ ((List.range N).filter (fun n => decide (1 ≤ n ∧ P n))).length ↔ (m < N ∧ P m)) := by
  induction N with
  | zero => intro m hm; simp; omega
  | succ N ih =>
    intro m hm
    rw [List.range_succ, List.filter_append, List.length_append]
    by_cases hN : 1 ≤ N ∧ P N
    · have hlen : ((List.range N).filter (fun n => decide (1 ≤ n ∧ P n))).length = N - 1 := by
        apply le_antisymm
        · by_contra hlt
          have : N ≤ ((List.range N).filter (fun n => decide (1 ≤ n ∧ P n))).length := by omega
          have := ((ih N hN.1).mp this).1
          omega
        · by_cases h1 : N = 1
          · omega
          · have : N - 1 < N ∧ P (N - 1) :=
              ⟨by omega, hanti (N - 1) N (by omega) (by omega) hN.2⟩
            exact (ih (N - 1) (by omega)).mpr this
      simp only [List.filter_cons, List.filter_nil, hN, decide_True, and_self, if_true,
        List.length_singleton, hlen]
      constructor
      · intro h
        exact ⟨by omega, hanti m N hm (by omega) hN.2⟩
      · intro h
        omega
    · have : ([N].filter (fun n => decide (1 ≤ n ∧ P n))).length = 0 := by
        simp [List.filter_cons, hN]
      rw [this, Nat.add_zero, ih m hm]
      constructor
      · intro h; exact ⟨by omega, h.2⟩
      · intro h
        refine ⟨?_, h.2⟩
        by_contra hc
        have hmN : m = N := by omega
        subst hmN
        exact hN ⟨hm, h.2⟩

/-- The rounded value is at least `m` exactly when the value reaches `m`. -/
theorem round8_ge_iff (x : ExactReal) (m : Nat) (hm : 1 ≤ m) (hm2 : m ≤ 255) :
    m ≤ x.round8 ↔ x.reaches m = true := by
  have h := count_antitone
    (fun n => (2 * n - 1) ^ x.pd * x.den ^ x.pn ≤ 510 ^ x.pd * x.num ^ x.pn)
    (fun n m _ hnm hP =>
      le_trans (Nat.mul_le_mul_right _ (Nat.pow_le_pow_left (by omega) _)) hP) 256 m hm
  unfold ExactReal.round8 ExactReal.reaches
  rw [h, decide_eq_true_iff]
  constructor
  · exact fun h => h.2
  · exact fun h => ⟨by omega, h⟩

/-- A rounded value is an 8-bit value. -/
theorem round8_le (x : ExactReal) : x.round8 ≤ 255 := by
  by_contra hc
  have h := count_antitone
    (fun n => (2 * n - 1) ^ x.pd * x.den ^ x.pn ≤ 510 ^ x.pd * x.num ^ x.pn)
    (fun n m _ hnm hP =>
      le_trans (Nat.mul_le_mul_right _ (Nat.pow_le_pow_left (by omega) _)) hP) 256 256
    (by norm_num)
  have h2 : 256 ≤ x.round8 := by omega
  unfold ExactReal.round8 at h2
  exact absurd (h.mp h2).1 (by norm_num)

/-- The rounding test over the reals: `n - 1/2 ≤ 255 (a/255)^(pn/pd)` as an inequality of
natural powers. -/
theorem reaches_iff_real (a pn pd m : Nat) (hm : 1 ≤ m) :
    (ExactReal.mk a 255 pn pd).reaches m = true ↔
      ((2 * (m : ℝ) - 1) / 510) ^ pd ≤ ((a : ℝ) / 255) ^ pn := by
  unfold ExactReal.reaches
  rw [decide_eq_true_iff]
  have hcast : ((2 * m - 1 : ℕ) : ℝ) = 2 * (m : ℝ) - 1 := by
    rw [Nat.cast_sub (by omega)]; push_cast; ring
  rw [div_pow, div_pow, div_le_div_iff₀ (by positivity) (by positivity), ← hcast]
  constructor
  · intro h
    have : (((2 * m - 1) ^ pd * 255 ^ pn : ℕ) : ℝ) ≤ ((510 ^ pd * a ^ pn : ℕ) : ℝ) := by
      exact_mod_cast h
    push_cast at this
    linarith
  · intro h
    have : (((2 * m - 1) ^ pd * 255 ^ pn : ℕ) : ℝ) ≤ ((510 ^ pd * a ^ pn : ℕ) : ℝ) := by
      push_cast
      linarith
    exact_mod_cast this

/-- In exact arithmetic and for `1/3 < p/q ≤ 1`, rounding `255 (i/255)^(p/q)` and then
`255 (y/255)^(q/p)` comes back within one step of `i`. -/
theorem exact_roundtrip_within_one (p q i : ℕ) (hp : 0 < p) (hpq : p ≤ q) (hq3 : q < 3 * p)
    (hi1 : 1 ≤ i) (hi : i ≤ 255) :
    1 ≤ (ExactReal.mk i 255 p q).round8 ∧
    (ExactReal.mk (ExactReal.mk i 255 p q).round8 255 q p).round8 ≤ i + 1 ∧
    i ≤ (ExactReal.mk (ExactReal.mk i 255 p q).round8 255 q p).round8 + 1 := by
  have hiR : (1 : ℝ) ≤ (i : ℝ) := by exact_mod_cast hi1
  have hiR2 : (i : ℝ) ≤ 255 := by exact_mod_cast hi
  have hy1 : 1 ≤ (ExactReal.mk i 255 p q).round8 := by
    rw [round8_ge_iff _ 1 (le_refl 1) (by norm_num), reaches_iff_real i p q 1 (le_refl 1)]
    have h510 : ((2 * ((1 : ℕ) : ℝ) - 1) / 510) ≤ (i : ℝ) / 255 := by
      push_cast
      rw [div_le_div_iff₀ (by norm_num) (by norm_num)]
      linarith
    calc ((2 * ((1 : ℕ) : ℝ) - 1) / 510) ^ q
        ≤ ((2 * ((1 : ℕ) : ℝ) - 1) / 510) ^ p :=
          pow_le_pow_of_le_one (by push_cast; norm_num) (by push_cast; norm_num) hpq
      _ ≤ ((i : ℝ) / 255) ^ p := pow_le_pow_left₀ (by push_cast; norm_num) h510 p
  generalize hy : (ExactReal.mk i 255 p q).round8 = y at hy1 ⊢
  have hy255 : y ≤ 255 := hy ▸ round8_le _
  have hyR : (1 : ℝ) ≤ (y : ℝ) := by exact_mod_cast hy1
  have hyR2 : (y : ℝ) ≤ 255 := by exact_mod_cast hy255
  have hfy : (ExactReal.mk i 255 p q).reaches y = true :=
    (round8_ge_iff _ y hy1 hy255).mp (le_of_eq hy.symm)
  have hfyR := (reaches_iff_real i p q y hy1).mp hfy
  have hr255 : (ExactReal.mk y 255 q p).round8 ≤ 255 := round8_le _
  refine ⟨hy1, ?_, ?_⟩
  · by_contra hc
    have hge : i + 2 ≤ (ExactReal.mk y 255 q p).round8 := by omega
    have hm2 : i + 2 ≤ 255 := le_trans hge hr255
    have hrR := (reaches_iff_real y q p (i + 2) (by omega)).mp
      ((round8_ge_iff _ (i + 2) (by omega) hm2).mp hge)
    refine roundtrip_real_upper p q hp hpq hq3 ((i : ℝ) / 255) ((y : ℝ) / 255) (1 / 510)
      (by norm_num) ?_ ?_ (by positivity) ?_ ?_
    · rw [div_le_div_iff₀ (by norm_num) (by norm_num)]; linarith
    · rw [div_le_one (by norm_num)]; exact hyR2
    · have e : (y : ℝ) / 255 - 1 / 510 = (2 * (y : ℝ) - 1) / 510 := by ring
      rw [e]; exact hfyR
    · have e : (i : ℝ) / 255 + 3 * (1 / 510) = (2 * ((i + 2 : ℕ) : ℝ) - 1) / 510 := by
        push_cast; ring
      rw [e]; exact hrR
  · by_cases hi2 : i ≤ 1
    · omega
    · by_contra hc
      have hi2R : (2 : ℝ) ≤ (i : ℝ) := by exact_mod_cast (by omega : 2 ≤ i)
      have hnot : ¬ (i - 1 ≤ (ExactReal.mk y 255 q p).round8) := by omega
      rw [round8_ge_iff _ (i - 1) (by omega) (by omega),
        reaches_iff_real y q p (i - 1) (by omega)] at hnot
      have hcast : ((i - 1 : ℕ) : ℝ) = (i : ℝ) - 1 := by
        rw [Nat.cast_sub (by omega)]; simp
      have e : (2 * ((i - 1 : ℕ) : ℝ) - 1) / 510 = (i : ℝ) / 255 - 3 * (1 / 510) := by
        rw [hcast]; ring
      rw [e] at hnot
      have h2 : ((y : ℝ) / 255) ^ q < ((i : ℝ) / 255 - 3 * (1 / 510)) ^ p := lt_of_not_le hnot
      by_cases hy254 : y ≤ 254
      · have hnf : ¬ (y + 1 ≤ (ExactReal.mk i 255 p q).round8) := by omega
        rw [round8_ge_iff _ (y + 1) (by omega) (by omega),
          reaches_iff_real i p q (y + 1) (by omega)] at hnf
        have e2 : (2 * ((y + 1 : ℕ) : ℝ) - 1) / 510 = (y : ℝ) / 255 + 1 / 510 := by
          push_cast; ring
        rw [e2] at hnf
        have hy254R : (y : ℝ) ≤ 254 := by exact_mod_cast hy254
        refine roundtrip_real_lower p q hp hpq hq3 ((i : ℝ) / 255) ((y : ℝ) / 255) (1 / 510)
          (by norm_num) (by positivity) ?_ ?_ (lt_of_not_le hnf) h2
        · have : (y : ℝ) / 255 + 1 / 510 = (2 * (y : ℝ) + 1) / 510 := by ring
          rw [this, div_le_one (by norm_num)]; linarith
        · have : 3 * (1 / 510 : ℝ) = 6 / 510 / 2 := by norm_num
          have e3 : (i : ℝ) / 255 = 2 * (i : ℝ) / 510 := by ring
          rw [e3, show 3 * (1 / 510 : ℝ) = 3 / 510 by norm_num,
            div_le_div_iff₀ (by norm_num) (by norm_num)]
          linarith
      · have hy' : y = 255 := by omega
        subst hy'
        have hle : ((i : ℝ) / 255 - 3 * (1 / 510)) ^ p ≤ 1 := by
          apply pow_le_one₀
          · have e3 : (i : ℝ) / 255 - 3 * (1 / 510) = (2 * (i : ℝ) - 3) / 510 := by ring
            rw [e3]; apply div_nonneg <;> linarith
          · have e3 : (i : ℝ) / 255 - 3 * (1 / 510) = (2 * (i : ℝ) - 3) / 510 := by ring
            rw [e3, div_le_one (by norm_num)]; linarith
        have : (((255 : ℕ) : ℝ) / 255) ^ q = 1 := by norm_num
        rw [this] at h2
        linarith

/-- A passed check gives the forward entry and the bound on the round trip. -/
theorem roundtrip_check_sound (p q i y : Nat) (hi : i ≤ 255)
    (h : roundtrip_check p q i y = true) :
    (ExactReal.mk i 255 p q).round8 = y ∧
    (if y = 0 then 0 else (ExactReal.mk y 255 q p).round8) ≤ i + 1 ∧
    i ≤ (if y = 0 then 0 else (ExactReal.mk y 255 q p).round8) + 1 := by
  simp only [roundtrip_check, Bool.and_eq_true, Bool.or_eq_true, decide_eq_true_eq,
    Bool.not_eq_true'] at h
  obtain ⟨⟨⟨⟨h1, h2⟩, h3⟩, h4⟩, h5⟩ := h
  have hf : (ExactReal.mk i 255 p q).round8 = y := by
    apply le_antisymm
    · rcases h3 with h3 | h3
      · rw [h3]; exact round8_le _
      · by_contra hc
        have hge : y + 1 ≤ (ExactReal.mk i 255 p q).round8 := by omega
        have hle := round8_le (ExactReal.mk i 255 p q)
        have := (round8_ge_iff _ (y + 1) (by omega) (by omega)).mp hge
        rw [h3] at this
        cases this
    · rcases h2 with h2 | h2
      · omega
      · by_cases hy0 : y = 0
        · omega
        · exact (round8_ge_iff _ y (by omega) h1).mpr h2
  refine ⟨hf, ?_, ?_⟩
  · by_cases hy0 : y = 0
    · simp [hy0]
    · simp only [hy0, if_false]
      have hle := round8_le (ExactReal.mk y 255 q p)
      rcases h5 with (h5 | h5) | h5
      · omega
      · exact absurd h5 hy0
      · by_contra hc
        have hge : i + 2 ≤ (ExactReal.mk y 255 q p).round8 := by omega
        have := (round8_ge_iff _ (i + 2) (by omega) (by omega)).mp hge
        rw [h5] at this
        cases this
  · rcases h4 with h4 | ⟨h4, h4'⟩
    · omega
    · have hy0 : y ≠ 0 := by omega
      simp only [hy0, if_false]
      by_cases hi1 : i ≤ 1
      · omega
      · have := (round8_ge_iff _ (i - 1) (by omega) (by omega)).mpr h4'
        omega

set_option maxRecDepth 100000 in
/-- The check for gamma = 1.1 at every index. -/
theorem roundtrip_check_gamma_11_10 : roundtrip_check_from 11 10 0 = true := by decide

set_option maxRecDepth 100000 in
/-- The check for gamma = 1.5 from index 9 on. -/
theorem roundtrip_check_gamma_3_2 : roundtrip_check_from 3 2 9 = true := by decide

set_option maxRecDepth 100000 in
/-- The check for gamma = 2 from index 35 on. -/
theorem roundtrip_check_gamma_2 : roundtrip_check_from 2 1 35 = true := by decide

set_option maxRecDepth 100000 in
/-- The check for gamma = 2.2 from index 49 on. -/
theorem roundtrip_check_gamma_11_5 : roundtrip_check_from 11 5 49 = true := by decide

/-- The round trip through the exact tables for gamma `p / q`, `p > 0`, at an index from 1 to
255, in terms of the two roundings. -/
theorem exact_gamma_roundtrip_eq (p q : Nat) (hp : 0 < p) (self : ESPColorCorrection)
    (i : Nat) (hi1 : 1 ≤ i) (hi : i ≤ 255) :
    gamma_roundtrip exactHelpers (ExactReal.frac p q) self i =
      if (ExactReal.mk i 255 p q).round8 = 0 then 0
      else (ExactReal.mk (ExactReal.mk i 255 p q).round8 255 q p).round8 := by
  have hfw : (calculate_gamma_table exactHelpers (ExactReal.frac p q) self).gamma_table_ i =
      (ExactReal.mk i 255 p q).round8 := by
    rw [gamma_table_spec, if_neg (by omega), if_pos (by omega)]
    have e : exactHelpers.to_uint8_scale (exactHelpers.gamma_correct (exactHelpers.div255 i)
        (ExactReal.frac p q)) = (ExactReal.mk i 255 p q).round8 := by
      simp [exactHelpers, ExactReal.frac]
    rw [e]
    exact Nat.mod_eq_of_lt (Nat.lt_succ_of_le (round8_le _))
  have hz : exactHelpers.is_zero (ExactReal.frac p q) = false := by
    simp [exactHelpers, ExactReal.frac]
    omega
  unfold gamma_roundtrip
  rw [hfw, gamma_reverse_table_spec, if_neg (by simp [hz])]
  by_cases hy0 : (ExactReal.mk i 255 p q).round8 = 0
  · simp [hy0]
  · rw [if_neg hy0, if_neg hy0, if_pos (Nat.lt_succ_of_le (round8_le _))]
    have e : exactHelpers.to_uint8_scale (exactHelpers.gamma_uncorrect
        (exactHelpers.div255 (ExactReal.mk i 255 p q).round8) (ExactReal.frac p q)) =
        (ExactReal.mk (ExactReal.mk i 255 p q).round8 255 q p).round8 := by
      simp [exactHelpers, ExactReal.frac]
    rw [e]
    exact Nat.mod_eq_of_lt (Nat.lt_succ_of_le (round8_le _))

/-- At index 0 the round trip is exact, for every gamma and all helpers. -/
theorem gamma_roundtrip_zero {F : Type} (h : ColorHelpers F) (gamma : F)
    (self : ESPColorCorrection) : gamma_roundtrip h gamma self 0 = 0 := by
  unfold gamma_roundtrip
  rw [gamma_table_spec, if_pos rfl, gamma_reverse_table_spec]
  split <;> simp

/-- The bound on the round trip through the exact tables from a passed check. -/
theorem exact_roundtrip_of_check (p q lo : Nat) (hp : 0 < p)
    (hc : roundtrip_check_from p q lo = true) (self : ESPColorCorrection) (i : Nat)
    (hlo : lo ≤ i) (hi : i < 256) :
    gamma_roundtrip exactHelpers (ExactReal.frac p q) self i ≤ i + 1 ∧
    i ≤ gamma_roundtrip exactHelpers (ExactReal.frac p q) self i + 1 := by
  by_cases hi0 : i = 0
  · subst hi0
    rw [gamma_roundtrip_zero]
    exact ⟨by omega, by omega⟩
  · have hall := List.all_eq_true.mp hc i (List.mem_range.mpr hi)
    simp only [Bool.or_eq_true, decide_eq_true_eq] at hall
    rcases hall with hlt | hck
    · omega
    · obtain ⟨h1, h2, h3⟩ := roundtrip_check_sound p q i _ (by omega) hck
      rw [exact_gamma_roundtrip_eq p q hp self i (by omega) (by omega), h1]
      exact ⟨h2, h3⟩

/-- C3 (amended). With the helper functions in exact arithmetic, after
`calculate_gamma_table(gamma)` on any object the round trip `gamma_reverse_table[gamma_table[i]]`
differs from `i` by at most one 8-bit step: for every gamma `p / q` with `1/3 < gamma ≤ 1` at
every `i` in `0..255`; for gamma = 1.1 at every `i`; for gamma = 1.5 at every `i ≥ 9`; for
gamma = 2 at every `i ≥ 35`; for gamma = 2.2 at every `i ≥ 49` (below these indices the
forward table for gamma > 1 merges neighbouring indices). At index 0 the round trip is exact
for every gamma, whatever the helper functions compute. -/
theorem gamma_roundtrip_within_one_step :
    (∀ (F : Type) (h : ColorHelpers F) (gamma : F) (self : ESPColorCorrection),
      gamma_roundtrip h gamma self 0 = 0) ∧
    (∀ (p q : Nat) (self : ESPColorCorrection) (i : Nat),
      0 < p → p ≤ q → q < 3 * p → i < 256 →
      gamma_roundtrip exactHelpers (ExactReal.frac p q) self i ≤ i + 1 ∧
      i ≤ gamma_roundtrip exactHelpers (ExactReal.frac p q) self i + 1) ∧
    (∀ (self : ESPColorCorrection) (i : Nat), i < 256 →
      gamma_roundtrip exactHelpers (ExactReal.frac 11 10) self i ≤ i + 1 ∧
      i ≤ gamma_roundtrip exactHelpers (ExactReal.frac 11 10) self i + 1) ∧
    (∀ (self : ESPColorCorrection) (i : Nat), 9 ≤ i → i < 256 →
      gamma_roundtrip exactHelpers (ExactReal.frac 3 2) self i ≤ i + 1 ∧
      i ≤ gamma_roundtrip exactHelpers (ExactReal.frac 3 2) self i + 1) ∧
    (∀ (self : ESPColorCorrection) (i : Nat), 35 ≤ i → i < 256 →
      gamma_roundtrip exactHelpers (ExactReal.frac 2 1) self i ≤ i + 1 ∧
      i ≤ gamma_roundtrip exactHelpers (ExactReal.frac 2 1) self i + 1) ∧
    (∀ (self : ESPColorCorrection) (i : Nat), 49 ≤ i → i < 256 →
      gamma_roundtrip exactHelpers (ExactReal.frac 11 5) self i ≤ i + 1 ∧
      i ≤ gamma_roundtrip exactHelpers (ExactReal.frac 11 5) self i + 1) := by
  refine ⟨fun F h gamma self => gamma_roundtrip_zero h gamma self, ?_,
    fun self i hi => exact_roundtrip_of_check 11 10 0 (by norm_num)
      roundtrip_check_gamma_11_10 self i (Nat.zero_le i) hi,
    fun self i hlo hi => exact_roundtrip_of_check 3 2 9 (by norm_num)
      roundtrip_check_gamma_3_2 self i hlo hi,
    fun self i hlo hi => exact_roundtrip_of_check 2 1 35 (by norm_num)
      roundtrip_check_gamma_2 self i hlo hi,
    fun self i hlo hi => exact_roundtrip_of_check 11 5 49 (by norm_num)
      roundtrip_check_gamma_11_5 self i hlo hi⟩
  intro p q self i hp hpq hq3 hi
  by_cases hi0 : i = 0
  · subst hi0
    rw [gamma_roundtrip_zero]
    exact ⟨by omega, by omega⟩
  · obtain ⟨h1, h2, h3⟩ := exact_roundtrip_within_one p q i hp hpq hq3 (by omega) (by omega)
    rw [exact_gamma_roundtrip_eq p q hp self i (by omega) (by omega), if_neg (by omega)]
    exact ⟨h2, h3⟩

/-- Witness of the amended C3: gamma = 1/2 at index 200 and gamma = 2 at index 100, tables
all zero before the call. -/
theorem gamma_roundtrip_within_one_step_witness :
    0 < 1 ∧ 1 ≤ 2 ∧ 2 < 3 * 1 ∧ 200 < 256 ∧
    (gamma_roundtrip exactHelpers (ExactReal.frac 1 2) zeroTables 200 ≤ 200 + 1 ∧
      200 ≤ gamma_roundtrip exactHelpers (ExactReal.frac 1 2) zeroTables 200 + 1) ∧
    35 ≤ 100 ∧ 100 < 256 ∧
    (gamma_roundtrip exactHelpers (ExactReal.frac 2 1) zeroTables 100 ≤ 100 + 1 ∧
      100 ≤ gamma_roundtrip exactHelpers (ExactReal.frac 2 1) zeroTables 100 + 1) :=
  ⟨by decide, by decide, by decide, by decide,
    gamma_roundtrip_within_one_step.2.1 1 2 zeroTables 200 (by decide) (by decide) (by decide)
      (by decide),
    by decide, by decide,
    gamma_roundtrip_within_one_step.2.2.2.2.1 zeroTables 100 (by decide) (by decide)⟩

set_option maxRecDepth 100000 in
/-- The entries of the exact tables for gamma = 2 and brightness range `[0, 1/2]` that the
evaluation at index 16 uses. -/
theorem exact_tables_gamma2_half :
    (calculate_brightness_table exactHelpers (ExactReal.frac 0 1) (ExactReal.frac 1 2)
      zeroTables).brightness_reverse_table_ 16 = 32 ∧
    (calculate_gamma_table exactHelpers (ExactReal.frac 2 1) zeroTables).gamma_reverse_table_ 32
      = 90 ∧
    (calculate_gamma_table exactHelpers (ExactReal.frac 2 1) zeroTables).gamma_reverse_table_ 16
      = 64 ∧
    (calculate_brightness_table exactHelpers (ExactReal.frac 0 1) (ExactReal.frac 1 2)
      zeroTables).brightness_reverse_table_ 64 = 128 ∧
    (calculate_brightness_table exactHelpers (ExactReal.frac 0 1) (ExactReal.frac 1 2)
      zeroTables).brightness_table_ 128 = 64 ∧
    (calculate_gamma_table exactHelpers (ExactReal.frac 2 1) zeroTables).gamma_table_ 64 = 16 ∧
    (calculate_brightness_table exactHelpers (ExactReal.frac 0 1) (ExactReal.frac 1 2)
      zeroTables).brightness_table_ 90 = 45 ∧
    (calculate_gamma_table exactHelpers (ExactReal.frac 2 1) zeroTables).gamma_table_ 45 = 8 := by
  simp only [gamma_table_spec, gamma_reverse_table_spec, brightness_table_spec,
    brightness_reverse_table_spec]
  decide

/-- C4, evaluation at the failing input (exact arithmetic, gamma = 2, brightness range
`[0, 1/2]`, index 16): the code stores
`correction_reverse_table[16] = gamma_reverse_table[brightness_reverse_table[16]] = 90`, while
the inverse order `brightness_reverse_table[gamma_reverse_table[16]]` is 128; the forward
table sends 128 to 16 and sends 90 to 8, so the stored entry does not undo the forward
table. -/
theorem correction_reverse_not_inverse_order :
    (calculate_correction_table exactHelpers (ExactReal.frac 2 1) (ExactReal.frac 0 1)
      (ExactReal.frac 1 2) zeroTables).correction_reverse_table_ 16 = 90 ∧
    (calculate_brightness_table exactHelpers (ExactReal.frac 0 1) (ExactReal.frac 1 2)
      zeroTables).brightness_reverse_table_
      ((calculate_gamma_table exactHelpers (ExactReal.frac 2 1)
        zeroTables).gamma_reverse_table_ 16) = 128 ∧
    (calculate_correction_table exactHelpers (ExactReal.frac 2 1) (ExactReal.frac 0 1)
      (ExactReal.frac 1 2) zeroTables).correction_table_ 128 = 16 ∧
    (calculate_correction_table exactHelpers (ExactReal.frac 2 1) (ExactReal.frac 0 1)
      (ExactReal.frac 1 2) zeroTables).correction_table_ 90 = 8 := by
  obtain ⟨e1, e2, e3, e4, e5, e6, e7, e8⟩ := exact_tables_gamma2_half
  have c := fun i hi => correction_table_spec exactHelpers (ExactReal.frac 2 1)
    (ExactReal.frac 0 1) (ExactReal.frac 1 2) zeroTables zeroTables i hi
  refine ⟨?_, ?_, ?_, ?_⟩
  · rw [(c 16 (by decide)).2.1, e1, e2]
  · rw [e3, e4]
  · rw [(c 128 (by decide)).1, e5, e6]
  · rw [(c 90 (by decide)).1, e7, e8]

set_option maxRecDepth 100000 in
/-- The exact helpers at the end points, for gamma = 2.2 and the brightness range `[0, 1]`. -/
theorem exact_endpoint_values :
    exactHelpers.to_uint8_scale (exactHelpers.brightness_correct (exactHelpers.div255 0)
      (ExactReal.frac 0 1) (ExactReal.frac 1 1)) = 0 ∧
    exactHelpers.to_uint8_scale (exactHelpers.brightness_correct (exactHelpers.div255 255)
      (ExactReal.frac 0 1) (ExactReal.frac 1 1)) = 255 ∧
    exactHelpers.to_uint8_scale (exactHelpers.gamma_correct (exactHelpers.div255 255)
      (ExactReal.frac 11 5)) = 255 := by
  decide

set_option maxRecDepth 100000 in
/-- In exact arithmetic `255 * 1^(p/q)` rounds to 255 for every exponent. -/
theorem exact_round8_one (d p q : Nat) : (ExactReal.mk d d p q).round8 = 255 := by
  unfold ExactReal.round8
  have hc : (List.range 256).filter (fun n =>
      decide (1 ≤ n ∧ (2 * n - 1) ^ q * d ^ p ≤ 510 ^ q * d ^ p)) =
      (List.range 256).filter (fun n => decide (1 ≤ n)) := by
    apply List.filter_congr
    intro n hn
    have hlt : n < 256 := List.mem_range.mp hn
    have hle : (2 * n - 1) ^ q * d ^ p ≤ 510 ^ q * d ^ p :=
      Nat.mul_le_mul_right _ (Nat.pow_le_pow_left (by omega) q)
    simp [hle]
  rw [hc]
  decide

/-- End points of the composed table for helpers that are exact at the end points. -/
theorem endpoints_of_exact_helpers {F : Type} (h : ColorHelpers F)
    (gamma min_brightness max_brightness : F) (self : ESPColorCorrection)
    (hb0 : h.to_uint8_scale (h.brightness_correct (h.div255 0) min_brightness max_brightness)
      = 0)
    (hb1 : h.to_uint8_scale (h.brightness_correct (h.div255 255) min_brightness max_brightness)
      = 255)
    (hg1 : h.to_uint8_scale (h.gamma_correct (h.div255 255) gamma) = 255) :
    (calculate_correction_table h gamma min_brightness max_brightness self).correction_table_ 0
      = 0 ∧
    (calculate_correction_table h gamma min_brightness max_brightness self).correction_table_ 255
      = 255 := by
  constructor
  · rw [(correction_table_spec h gamma min_brightness max_brightness self self 0
      (by norm_num)).1, brightness_table_spec, if_pos (by norm_num), hb0, gamma_table_spec]
    rfl
  · rw [(correction_table_spec h gamma min_brightness max_brightness self self 255
      (by norm_num)).1, brightness_table_spec, if_pos (by norm_num), hb1, gamma_table_spec]
    simp [hg1]

/-- C5. End points of the composed table under the full brightness range. In exact
arithmetic, for `min_brightness = 0`, `max_brightness = 1` and every gamma `p / q`
(gamma = 2.2 is `p = 11`, `q = 5`), `calculate_correction_table` run on any object yields
`correction_table[0] = 0` and `correction_table[255] = 255`. The same holds for every
implementation of the helper functions that is exact at the end points:
`to_uint8_scale(brightness_correct(0/255, min, max)) = 0`,
`to_uint8_scale(brightness_correct(255/255, min, max)) = 255` and
`to_uint8_scale(gamma_correct(255/255, gamma)) = 255` (`1^gamma = 1`). -/
theorem correction_table_endpoints :
    (∀ (p q : Nat) (self : ESPColorCorrection),
      (calculate_correction_table exactHelpers (ExactReal.frac p q) (ExactReal.frac 0 1)
        (ExactReal.frac 1 1) self).correction_table_ 0 = 0 ∧
      (calculate_correction_table exactHelpers (ExactReal.frac p q) (ExactReal.frac 0 1)
        (ExactReal.frac 1 1) self).correction_table_ 255 = 255) ∧
    (∀ (F : Type) (h : ColorHelpers F) (gamma min_brightness max_brightness : F)
      (self : ESPColorCorrection),
      h.to_uint8_scale (h.brightness_correct (h.div255 0) min_brightness max_brightness) = 0 →
      h.to_uint8_scale (h.brightness_correct (h.div255 255) min_brightness max_brightness)
        = 255 →
      h.to_uint8_scale (h.gamma_correct (h.div255 255) gamma) = 255 →
      (calculate_correction_table h gamma min_brightness max_brightness
        self).correction_table_ 0 = 0 ∧
      (calculate_correction_table h gamma min_brightness max_brightness
        self).correction_table_ 255 = 255) :=
  ⟨fun p q self =>
    endpoints_of_exact_helpers exactHelpers (ExactReal.frac p q) (ExactReal.frac 0 1)
      (ExactReal.frac 1 1) self exact_endpoint_values.1 exact_endpoint_values.2.1
      (exact_round8_one 255 (1 * p) (1 * q)),
    fun _ h gamma min_brightness max_brightness self hb0 hb1 hg1 =>
      endpoints_of_exact_helpers h gamma min_brightness max_brightness self hb0 hb1 hg1⟩

/-- Witness of C5: exact arithmetic, gamma = 2.2, `min_brightness = 0`, `max_brightness = 1`,
tables all zero before the call; the helpers are exact at the end points. -/
theorem correction_table_endpoints_witness :
    exactHelpers.to_uint8_scale (exactHelpers.brightness_correct (exactHelpers.div255 0)
      (ExactReal.frac 0 1) (ExactReal.frac 1 1)) = 0 ∧
    exactHelpers.to_uint8_scale (exactHelpers.brightness_correct (exactHelpers.div255 255)
      (ExactReal.frac 0 1) (ExactReal.frac 1 1)) = 255 ∧
    exactHelpers.to_uint8_scale (exactHelpers.gamma_correct (exactHelpers.div255 255)
      (ExactReal.frac 11 5)) = 255 ∧
    (calculate_correction_table exactHelpers (ExactReal.frac 11 5) (ExactReal.frac 0 1)
      (ExactReal.frac 1 1) zeroTables).correction_table_ 0 = 0 ∧
    (calculate_correction_table exactHelpers (ExactReal.frac 11 5) (ExactReal.frac 0 1)
      (ExactReal.frac 1 1) zeroTables).correction_table_ 255 = 255 :=
  ⟨exact_endpoint_values.1, exact_endpoint_values.2.1, exact_endpoint_values.2.2,
    correction_table_endpoints.2 ExactReal exactHelpers (ExactReal.frac 11 5)
      (ExactReal.frac 0 1) (ExactReal.frac 1 1) zeroTables exact_endpoint_values.1
      exact_endpoint_values.2.1 exact_endpoint_values.2.2⟩

/-! ## Theorems about the light state controller -/

theorem get_active_effect_defined {V : Type} (self : LightState V)
    (h : self.active_effect_index_ ≤ self.effects_.length) :
    ∃ e, self.get_active_effect_ = some e := by
  unfold LightState.get_active_effect_
  by_cases h0 : self.active_effect_index_ = 0
  · exact ⟨none, by simp [h0]⟩
  · have hlt : self.active_effect_index_ - 1 < self.effects_.length := by omega
    refine ⟨some (self.effects_.get ⟨_, hlt⟩), ?_⟩
    simp [h0, List.getElem?_eq_getElem hlt]

/-- What `stop_effect_` leaves untouched. -/
theorem stop_effect_frame {V : Type} (s t : LightState V) (h : s.stop_effect_ = some t) :
    t.current_values = s.current_values ∧ t.remote_values = s.remote_values ∧
    t.transformer_ = s.transformer_ := by
  unfold LightState.stop_effect_ at h
  cases he : s.get_active_effect_ with
  | none => simp [he] at h
  | some e =>
    cases e with
    | none => simp [he] at h; subst h; exact ⟨rfl, rfl, rfl⟩
    | some e => simp [he] at h; subst h; exact ⟨rfl, rfl, rfl⟩

/-- What `start_effect_` leaves untouched. -/
theorem start_effect_frame {V : Type} (k : Nat) (s t : LightState V)
    (h : s.start_effect_ k = some t) :
    t.current_values = s.current_values ∧ t.remote_values = s.remote_values ∧
    t.transformer_ = s.transformer_ := by
  unfold LightState.start_effect_ at h
  cases hs : s.stop_effect_ with
  | none => simp [hs] at h
  | some s1 =>
    have f := stop_effect_frame s s1 hs
    simp only [hs] at h
    by_cases hk : k = 0
    · simp [hk] at h; subst h; exact f
    · simp only [hk, if_false] at h
      split at h
      · simp at h; subst h; exact f
      · simp at h

/-- The transformer block of a tick ends with equal values when it ends without a
transformer. -/
theorem loop_transformer_sync {V : Type} (lerp : V → V → Nat → Nat → V) (now : Nat)
    (t : LightTransformer V) (s : LightState V) (ht : s.transformer_ ≠ none)
    (hn : (LightState.loop_transformer lerp now t s).transformer_ = none) :
    (LightState.loop_transformer lerp now t s).current_values =
      (LightState.loop_transformer lerp now t s).remote_values := by
  unfold LightState.loop_transformer at hn ⊢
  by_cases hf : t.is_finished now = true
  · by_cases hp : t.publish_at_end = true <;>
      simp [hf, hp, LightState.publish_state, LightState.call_remote_values_callback_,
        LightState.call_target_state_reached_callback_]
  · simp [hf] at hn
    exact absurd hn ht

/-- The transformer block of a tick for a finished transformer commits its end values to both
values and leaves no transformer. -/
theorem loop_transformer_finished {V : Type} (lerp : V → V → Nat → Nat → V) (now : Nat)
    (t : LightTransformer V) (s : LightState V) (hf : t.is_finished now = true) :
    (LightState.loop_transformer lerp now t s).current_values = t.get_end_values ∧
    (LightState.loop_transformer lerp now t s).remote_values = t.get_end_values ∧
    (LightState.loop_transformer lerp now t s).transformer_ = none := by
  unfold LightState.loop_transformer
  by_cases hp : t.publish_at_end = true <;>
    simp [hf, hp, LightState.publish_state, LightState.call_remote_values_callback_,
      LightState.call_target_state_reached_callback_]

/-- The write block of a tick changes neither value nor the transformer. -/
theorem loop_write_frame {V : Type} (s : LightState V) :
    s.loop_write.current_values = s.current_values ∧
    s.loop_write.remote_values = s.remote_values ∧
    s.loop_write.transformer_ = s.transformer_ := by
  unfold LightState.loop_write
  split <;> exact ⟨rfl, rfl, rfl⟩

/-- The effect block of a tick changes neither `remote_values` nor the transformer. -/
theorem loop_effect_frame {V : Type} (e : Option (LightEffect V)) (s : LightState V) :
    (s.loop_effect e).remote_values = s.remote_values ∧
    (s.loop_effect e).transformer_ = s.transformer_ := by
  cases e <;> exact ⟨rfl, rfl⟩

/-- A tick with the transformer `t` active: the effect block, the transformer block for `t`,
the write block. -/
theorem loop_with_transformer {V : Type} (lerp : V → V → Nat → Nat → V) (now : Nat)
    (s : LightState V) (e : Option (LightEffect V)) (t : LightTransformer V)
    (he : s.get_active_effect_ = some e) (ht : s.transformer_ = some t) :
    s.loop lerp now =
      some (LightState.loop_write (LightState.loop_transformer lerp now t (s.loop_effect e))) := by
  have h2 : (s.loop_effect e).transformer_ = some t := by
    rw [(loop_effect_frame e s).2]; exact ht
  simp only [LightState.loop, he, h2]

/-- A tick that keeps the remote values keeps the invariant. -/
theorem loop_sync {V : Type} (lerp : V → V → Nat → Nat → V) (now : Nat) (s t : LightState V)
    (hinv : s.transformer_ = none → s.current_values = s.remote_values)
    (hk : (Request.loop now).keeps_remote s)
    (h : s.loop lerp now = some t) (hn : t.transformer_ = none) :
    t.current_values = t.remote_values := by
  unfold LightState.loop at h
  cases he : s.get_active_effect_ with
  | none => simp [he] at h
  | some e =>
    simp only [he, Option.some.injEq] at h
    subst h
    obtain ⟨w1, w2, w3⟩ := loop_write_frame
      (match (s.loop_effect e).transformer_ with
        | some t => LightState.loop_transformer lerp now t (s.loop_effect e)
        | none => s.loop_effect e)
    rw [w3] at hn
    rw [w1, w2]
    obtain ⟨f1, f2⟩ := loop_effect_frame e s
    cases htr : (s.loop_effect e).transformer_ with
    | some tr =>
      rw [htr] at hn
      exact loop_transformer_sync lerp now tr _ (by rw [htr]; simp) hn
    | none =>
      have hs : s.transformer_ = none := by rw [← f2]; exact htr
      show (s.loop_effect e).current_values = (s.loop_effect e).remote_values
      rw [f1]
      cases e with
      | none => exact hinv hs
      | some e =>
        show e.apply s.current_values = s.remote_values
        rw [hk hs e he]
        exact hinv hs

/-- One request that keeps the remote values keeps the invariant. -/
theorem perform_sync {V : Type} (lerp : V → V → Nat → Nat → V) (r : Request V)
    (s t : LightState V)
    (hinv : s.transformer_ = none → s.current_values = s.remote_values)
    (hk : r.keeps_remote s) (h : r.perform lerp s = some t) :
    t.transformer_ = none → t.current_values = t.remote_values := by
  cases r with
  | start_transition_ now target length =>
    simp [Request.perform] at h; subst h
    intro hn; simp [LightState.start_transition_] at hn
  | start_flash_ now target length =>
    simp [Request.perform] at h; subst h
    intro hn; simp [LightState.start_flash_] at hn
  | set_immediately_ target b =>
    simp [Request.perform] at h; subst h
    have hb : b = true := hk
    subst hb
    intro _; rfl
  | start_effect_ k =>
    obtain ⟨f1, f2, f3⟩ := start_effect_frame k s t h
    intro hn; rw [f1, f2]; exact hinv (f3 ▸ hn)
  | stop_effect_ =>
    obtain ⟨f1, f2, f3⟩ := stop_effect_frame s t h
    intro hn; rw [f1, f2]; exact hinv (f3 ▸ hn)
  | publish_state =>
    simp [Request.perform] at h; subst h
    exact hinv
  | loop now =>
    exact loop_sync lerp now s t hinv hk h

/-- A run of requests that keep the remote values keeps the invariant. -/
theorem run_sync {V : Type} (lerp : V → V → Nat → Nat → V) (rs : List (Request V)) :
    ∀ s t : LightState V,
      (s.transformer_ = none → s.current_values = s.remote_values) →
      Request.all_keep_remote lerp rs s → Request.run lerp rs s = some t →
      t.transformer_ = none → t.current_values = t.remote_values := by
  induction rs with
  | nil =>
    intro s t hinv _ h
    simp [Request.run] at h
    subst h
    exact hinv
  | cons r rs ih =>
    intro s t hinv hk h
    obtain ⟨hk1, hk2⟩ := hk
    cases hp : r.perform lerp s with
    | none => simp [Request.run, hp] at h
    | some u =>
      simp only [Request.run, hp] at h
      simp only [hp] at hk2
      exact ih u t (perform_sync lerp r s u hinv hk1 hp) hk2 h

/-- Counterexample to C6: from the constructed state, where both values are 0 and no
transformer is active, the single request `set_immediately_(1, false)` reaches a state with no
transformer, `current_values = 1` and `remote_values = 0`. -/
theorem set_immediately_without_remote_breaks_equality :
    (LightState.init 0 LightRestoreMode.LIGHT_RESTORE_DEFAULT_OFF).current_values =
      (LightState.init 0 LightRestoreMode.LIGHT_RESTORE_DEFAULT_OFF).remote_values ∧
    Request.run natLerp [Request.set_immediately_ 1 false]
        (LightState.init 0 LightRestoreMode.LIGHT_RESTORE_DEFAULT_OFF) =
      some (LightState.set_immediately_ 1 false
        (LightState.init 0 LightRestoreMode.LIGHT_RESTORE_DEFAULT_OFF)) ∧
    (LightState.set_immediately_ 1 false
      (LightState.init 0 LightRestoreMode.LIGHT_RESTORE_DEFAULT_OFF)).transformer_ = none ∧
    (LightState.set_immediately_ 1 false
      (LightState.init 0 LightRestoreMode.LIGHT_RESTORE_DEFAULT_OFF)).current_values ≠
    (LightState.set_immediately_ 1 false
      (LightState.init 0 LightRestoreMode.LIGHT_RESTORE_DEFAULT_OFF)).remote_values := by
  refine ⟨rfl, rfl, rfl, ?_⟩
  show (1 : Nat) ≠ 0
  decide

/-- C6 (amended). In every state reached from a state with `current_values == remote_values`
through `start_transition_`, `start_flash_`, `set_immediately_` called with
`set_remote_values = true`, `start_effect_`, `stop_effect_`, `publish_state` and `loop` (a
tick without transformer running no effect, or one whose `apply` hook leaves
`current_values` as it is), whenever no transformer is active
`current_values == remote_values`. -/
theorem current_eq_remote_without_transformer {V : Type} (lerp : V → V → Nat → Nat → V)
    (rs : List (Request V)) (s0 s : LightState V)
    (h0 : s0.current_values = s0.remote_values)
    (hk : Request.all_keep_remote lerp rs s0)
    (hrun : Request.run lerp rs s0 = some s)
    (hn : s.transformer_ = none) :
    s.current_values = s.remote_values :=
  run_sync lerp rs s0 s (fun _ => h0) hk hrun hn

/-- Every request of `transitionRun` keeps the remote values. -/
theorem transitionRun_keeps_remote :
    Request.all_keep_remote natLerp transitionRun
      (LightState.init 0 LightRestoreMode.LIGHT_RESTORE_DEFAULT_OFF) := by
  refine ⟨trivial, ?_⟩
  refine ⟨fun h => Option.noConfusion h, ?_⟩
  refine ⟨trivial, ?_⟩
  refine ⟨fun h => Option.noConfusion h, ?_⟩
  refine ⟨rfl, ?_⟩
  refine ⟨fun _ e he => ?_, trivial⟩
  exact Option.noConfusion (Option.some.inj he)

/-- Witness of the amended C6: `transitionRun` from the constructed state ends in
`transitionRunEnd`, with no transformer and both values 7. -/
theorem current_eq_remote_without_transformer_witness :
    (LightState.init 0 LightRestoreMode.LIGHT_RESTORE_DEFAULT_OFF).current_values =
      (LightState.init 0 LightRestoreMode.LIGHT_RESTORE_DEFAULT_OFF).remote_values ∧
    Request.run natLerp transitionRun
        (LightState.init 0 LightRestoreMode.LIGHT_RESTORE_DEFAULT_OFF) = some transitionRunEnd ∧
    transitionRunEnd.transformer_ = none ∧
    transitionRunEnd.current_values = transitionRunEnd.remote_values :=
  ⟨rfl, rfl, rfl,
    current_eq_remote_without_transformer natLerp transitionRun
      (LightState.init 0 LightRestoreMode.LIGHT_RESTORE_DEFAULT_OFF) transitionRunEnd rfl
      transitionRun_keeps_remote rfl rfl⟩

/-- C7. `start_transition_(target, length)` at time `now`, from any state: the result is the
state with only `transformer_` and `remote_values` replaced; the transformer is
`Transition(now, length, current_values before the call, target)` whatever transformer was
there before; `remote_values` is that transformer's remote value, which is `target`;
`current_values`, the active effect index and the dirty flag are unchanged and the trace of
events (callbacks included) is unchanged. -/
theorem start_transition_replaces_transformer {V : Type} (now : Nat) (target : V) (length : Nat)
    (self : LightState V) (old : Option (LightTransformer V)) :
    self.start_transition_ now target length =
      { self with
        transformer_ := some (LightTransitionTransformer now length self.current_values target)
        remote_values := target } ∧
    (self.start_transition_ now target length).transformer_ =
      some (LightTransitionTransformer now length self.current_values target) ∧
    (self.start_transition_ now target length).remote_values =
      (LightTransitionTransformer now length self.current_values target).get_remote_values ∧
    (self.start_transition_ now target length).remote_values = target ∧
    (self.start_transition_ now target length).current_values = self.current_values ∧
    (self.start_transition_ now target length).active_effect_index_ =
      self.active_effect_index_ ∧
    (self.start_transition_ now target length).next_write_ = self.next_write_ ∧
    (self.start_transition_ now target length).trace = self.trace ∧
    LightState.start_transition_ now target length { self with transformer_ := old } =
      self.start_transition_ now target length :=
  ⟨rfl, rfl, rfl, rfl, rfl, rfl, rfl, rfl, rfl⟩

/-- C8. `start_flash_(target, length)` at time `now`: with no transformer active the new
transformer is `Flash(now, length, current_values before the call, target)`; with a
transformer `t` active it is `Flash(now, length, t.get_end_values(), target)`, the old one
being replaced; `remote_values` is the new Flash's remote value; `current_values` is
unchanged. -/
theorem start_flash_baseline {V : Type} (now : Nat) (target : V) (length : Nat)
    (self : LightState V) :
    (self.transformer_ = none →
      (self.start_flash_ now target length).transformer_ =
        some (LightFlashTransformer now length self.current_values target) ∧
      (self.start_flash_ now target length).remote_values =
        (LightFlashTransformer now length self.current_values target).get_remote_values) ∧
    (∀ t, self.transformer_ = some t →
      (self.start_flash_ now target length).transformer_ =
        some (LightFlashTransformer now length t.get_end_values target) ∧
      (self.start_flash_ now target length).remote_values =
        (LightFlashTransformer now length t.get_end_values target).get_remote_values) ∧
    (self.start_flash_ now target length).current_values = self.current_values := by
  refine ⟨fun h => ?_, fun t h => ?_, rfl⟩
  · simp [LightState.start_flash_, h]
  · simp [LightState.start_flash_, h]

/-- Witness of C8: from the constructed state with value 1 (no transformer) the Flash gets
baseline 1; from `flashRunning` (a Flash with baseline 1 and target 2 active) the new Flash
gets the baseline `get_end_values()` of the active one. -/
theorem start_flash_baseline_witness :
    (LightState.init 1 LightRestoreMode.LIGHT_RESTORE_DEFAULT_OFF).transformer_ = none ∧
    ((LightState.init 1 LightRestoreMode.LIGHT_RESTORE_DEFAULT_OFF).start_flash_ 0 2
      100).transformer_ = some (LightFlashTransformer 0 100 1 2) ∧
    flashRunning.transformer_ = some (LightFlashTransformer 0 100 1 2) ∧
    (flashRunning.start_flash_ 50 3 100).transformer_ =
      some (LightFlashTransformer 50 100 (LightFlashTransformer 0 100 1 2).get_end_values 3) :=
  ⟨rfl,
    ((start_flash_baseline 0 2 100
      (LightState.init 1 LightRestoreMode.LIGHT_RESTORE_DEFAULT_OFF)).1 rfl).1,
    rfl,
    ((start_flash_baseline 50 3 100 flashRunning).2.1 (LightFlashTransformer 0 100 1 2)
      rfl).1⟩

/-- Counterexample to C9: in `flashRunning` a Flash from baseline 1 to target 2 is running;
`start_flash_(3, 100)` at time 50 gives the new Flash the revert baseline 1, the baseline of
the prior flash, and not its target 2, and the tick at time 150, in which the second flash
completes, leaves `current_values = remote_values = 1`, not 2. -/
theorem flash_on_flash_reverts_to_first_baseline :
    flashRunning.transformer_ = some (LightFlashTransformer 0 100 1 2) ∧
    (flashRunning.start_flash_ 50 3 100).transformer_ =
      some (LightFlashTransformer 50 100 1 3) ∧
    (flashRunning.start_flash_ 50 3 100).transformer_ ≠
      some (LightFlashTransformer 50 100 2 3) ∧
    (LightState.loop natLerp 150 (flashRunning.start_flash_ 50 3 100)).map
      (fun s => (s.current_values, s.remote_values, s.transformer_)) = some (1, 1, none) ∧
    (LightState.loop natLerp 150 (flashRunning.start_flash_ 50 3 100)).map
      (fun s => (s.current_values, s.remote_values, s.transformer_)) ≠ some (2, 2, none) := by
  refine ⟨rfl, rfl, ?_, rfl, ?_⟩ <;> decide

/-- C9 (amended). In every state in which a Flash from baseline `B1` to target `T1` is
running, a new flash request `(T2, length)` at time `now` gives the new Flash the revert
baseline `B1`, the `get_end_values()` of the prior flash, which is the prior flash's own
baseline and neither its target nor an interpolated value; and the tick at any time `later`
with `length ≤ later - now` (the effect index being in range) returns, with no transformer and
`current_values = remote_values = B1`. -/
theorem flash_on_flash_chains_to_baseline {V : Type} (lerp : V → V → Nat → Nat → V)
    (self : LightState V) (start1 length1 : Nat) (B1 T1 T2 : V) (now length later : Nat)
    (hrun : self.transformer_ = some (LightFlashTransformer start1 length1 B1 T1))
    (hvalid : self.active_effect_index_ ≤ self.effects_.length)
    (hdone : length ≤ later - now) :
    (self.start_flash_ now T2 length).transformer_ =
      some (LightFlashTransformer now length B1 T2) ∧
    ∃ s, LightState.loop lerp later (self.start_flash_ now T2 length) = some s ∧
      s.current_values = B1 ∧ s.remote_values = B1 ∧ s.transformer_ = none := by
  have htr : (self.start_flash_ now T2 length).transformer_ =
      some (LightFlashTransformer now length B1 T2) := by
    simp [LightState.start_flash_, hrun, LightTransformer.get_end_values,
      LightFlashTransformer]
  refine ⟨htr, ?_⟩
  obtain ⟨e, he⟩ := get_active_effect_defined (self.start_flash_ now T2 length) hvalid
  obtain ⟨f1, f2⟩ := loop_effect_frame e (self.start_flash_ now T2 length)
  have hfin : (LightFlashTransformer now length B1 T2).is_finished later = true := by
    simp [LightTransformer.is_finished, LightFlashTransformer, hdone]
  refine ⟨_, loop_with_transformer lerp later _ e _ he htr, ?_⟩
  obtain ⟨w1, w2, w3⟩ := loop_write_frame
    (LightState.loop_transformer lerp later (LightFlashTransformer now length B1 T2)
      ((self.start_flash_ now T2 length).loop_effect e))
  rw [w1, w2, w3]
  exact loop_transformer_finished lerp later _ _ hfin

/-- Witness of the amended C9: `flashRunning`, a second flash to 3 of length 100 at time 50,
and the tick at time 150. -/
theorem flash_on_flash_chains_to_baseline_witness :
    flashRunning.transformer_ = some (LightFlashTransformer 0 100 1 2) ∧
    flashRunning.active_effect_index_ ≤ flashRunning.effects_.length ∧
    100 ≤ 150 - 50 ∧
    (flashRunning.start_flash_ 50 3 100).transformer_ =
      some (LightFlashTransformer 50 100 1 3) :=
  ⟨rfl, by decide, by decide,
    (flash_on_flash_chains_to_baseline natLerp flashRunning 0 100 1 2 3 50 100 150 rfl
      (by decide) (by decide)).1⟩

/-- C10. `set_immediately_(target, set_remote_values)` from any state: the result is the
state with no transformer, `current_values = target`, the dirty flag set, and
`remote_values = target` if `set_remote_values` and the former `remote_values` otherwise,
every other member, the active effect index and the trace of events (callbacks included)
being unchanged. The result does not depend on the transformer that was active, so neither
does any later tick. -/
theorem set_immediately_discards_transformer {V : Type} (lerp : V → V → Nat → Nat → V)
    (target : V) (set_remote_values : Bool) (self : LightState V)
    (old : Option (LightTransformer V)) (now : Nat) :
    self.set_immediately_ target set_remote_values =
      { self with
        transformer_ := none
        current_values := target
        remote_values := if set_remote_values then target else self.remote_values
        next_write_ := true } ∧
    (self.set_immediately_ target set_remote_values).transformer_ = none ∧
    (self.set_immediately_ target set_remote_values).current_values = target ∧
    (self.set_immediately_ target set_remote_values).next_write_ = true ∧
    (self.set_immediately_ target set_remote_values).remote_values =
      (if set_remote_values then target else self.remote_values) ∧
    (self.set_immediately_ target set_remote_values).active_effect_index_ =
      self.active_effect_index_ ∧
    (self.set_immediately_ target set_remote_values).trace = self.trace ∧
    LightState.set_immediately_ target set_remote_values { self with transformer_ := old } =
      self.set_immediately_ target set_remote_values ∧
    LightState.loop lerp now
        (LightState.set_immediately_ target set_remote_values
          { self with transformer_ := old }) =
      LightState.loop lerp now (self.set_immediately_ target set_remote_values) := by
  cases set_remote_values <;> exact ⟨rfl, rfl, rfl, rfl, rfl, rfl, rfl, rfl, rfl⟩

/-! ## The tick, case by case -/

/-- A tick in which the active transformer `t` is finished. -/
theorem loop_finished_eq {V : Type} (lerp : V → V → Nat → Nat → V) (now : Nat)
    (s : LightState V) (e : Option (LightEffect V)) (t : LightTransformer V)
    (he : s.get_active_effect_ = some e) (ht : s.transformer_ = some t)
    (hf : t.is_finished now = true) :
    s.loop lerp now = some
      { s with
        current_values := t.get_end_values
        remote_values := t.get_end_values
        transformer_ := none
        next_write_ := false
        trace := s.trace ++ effect_events e s ++ target_reached_events s t.get_end_values ++
          (if t.publish_at_end then remote_changed_events s t.get_end_values else []) ++
          [Event.write_state t.get_end_values] } := by
  rw [loop_with_transformer lerp now s e t he ht]
  cases e <;> cases hp : t.publish_at_end <;>
    simp [LightState.loop_write, LightState.loop_transformer, LightState.loop_effect, hf, hp,
      LightState.publish_state, LightState.call_remote_values_callback_,
      LightState.call_target_state_reached_callback_, effect_events, target_reached_events,
      remote_changed_events]

/-- A tick in which the active transformer `t` is not finished. -/
theorem loop_unfinished_eq {V : Type} (lerp : V → V → Nat → Nat → V) (now : Nat)
    (s : LightState V) (e : Option (LightEffect V)) (t : LightTransformer V)
    (he : s.get_active_effect_ = some e) (ht : s.transformer_ = some t)
    (hf : t.is_finished now = false) :
    s.loop lerp now = some
      { s with
        current_values := t.get_values lerp now
        remote_values := t.get_remote_values
        next_write_ := false
        trace := s.trace ++ effect_events e s ++ [Event.write_state (t.get_values lerp now)] } := by
  rw [loop_with_transformer lerp now s e t he ht]
  cases e <;>
    simp [LightState.loop_write, LightState.loop_transformer, LightState.loop_effect, hf, ht,
      effect_events]

/-- A tick with no transformer active. -/
theorem loop_idle_eq {V : Type} (lerp : V → V → Nat → Nat → V) (now : Nat)
    (s : LightState V) (e : Option (LightEffect V))
    (he : s.get_active_effect_ = some e) (ht : s.transformer_ = none) :
    s.loop lerp now = some
      { s with
        current_values := (s.loop_effect e).current_values
        next_write_ := false
        trace := s.trace ++ effect_events e s ++
          (if s.next_write_ then [Event.write_state (s.loop_effect e).current_values]
            else []) } := by
  have h2 : (s.loop_effect e).transformer_ = none := by
    rw [(loop_effect_frame e s).2]; exact ht
  simp only [LightState.loop, he, h2]
  cases e <;> cases hw : s.next_write_ <;>
    simp [LightState.loop_write, LightState.loop_effect, hw, ht, effect_events]
  cases s
  simp_all

/-- The invocations of the "target reached" registry are callback events. -/
theorem target_reached_events_callbacks {V : Type} (s : LightState V) (v : V) :
    callbacks_of (target_reached_events s v) = target_reached_events s v := by
  unfold callbacks_of target_reached_events
  rw [List.filter_eq_self]
  intro ev hev
  obtain ⟨id, _, rfl⟩ := List.mem_map.mp hev
  rfl

/-- The invocations of the "remote changed" registry are callback events. -/
theorem remote_changed_events_callbacks {V : Type} (s : LightState V) (v : V) :
    callbacks_of (remote_changed_events s v) = remote_changed_events s v := by
  unfold callbacks_of remote_changed_events
  rw [List.filter_eq_self]
  intro ev hev
  obtain ⟨id, _, rfl⟩ := List.mem_map.mp hev
  rfl

/-- The effect block of a tick invokes no callback. -/
theorem effect_events_callbacks {V : Type} (e : Option (LightEffect V)) (s : LightState V) :
    callbacks_of (effect_events e s) = [] := by
  cases e <;> rfl

theorem callbacks_of_append {V : Type} (a b : List (Event V)) :
    callbacks_of (a ++ b) = callbacks_of a ++ callbacks_of b := by
  unfold callbacks_of
  exact List.filter_append a b

/-- A run of two lists of requests is the run of the second from the result of the first. -/
theorem run_append {V : Type} (lerp : V → V → Nat → Nat → V) (l1 l2 : List (Request V)) :
    ∀ s s1 : LightState V, Request.run lerp l1 s = some s1 →
      Request.run lerp (l1 ++ l2) s = Request.run lerp l2 s1 := by
  induction l1 with
  | nil =>
    intro s s1 h
    simp [Request.run] at h
    subst h
    rfl
  | cons r l1 ih =>
    intro s s1 h
    cases hp : r.perform lerp s with
    | none => simp [Request.run, hp] at h
    | some u =>
      simp only [Request.run, hp, List.cons_append] at h ⊢
      exact ih u s1 h

/-- One tick during which the transformer `t` is not finished keeps it and invokes no
callback. -/
theorem loop_unfinished_frame {V : Type} (lerp : V → V → Nat → Nat → V) (now : Nat)
    (s : LightState V) (t : LightTransformer V) (ht : s.transformer_ = some t)
    (hv : s.active_effect_index_ ≤ s.effects_.length) (hf : t.is_finished now = false) :
    ∃ s1, s.loop lerp now = some s1 ∧ s1.transformer_ = some t ∧
      s1.active_effect_index_ = s.active_effect_index_ ∧ s1.effects_ = s.effects_ ∧
      s1.remote_values_callback_ = s.remote_values_callback_ ∧
      s1.target_state_reached_callback_ = s.target_state_reached_callback_ ∧
      callbacks_of s1.trace = callbacks_of s.trace := by
  obtain ⟨e, he⟩ := get_active_effect_defined s hv
  refine ⟨_, loop_unfinished_eq lerp now s e t he ht hf, ht, rfl, rfl, rfl, rfl, ?_⟩
  simp only [callbacks_of_append, effect_events_callbacks]
  simp [callbacks_of, Event.is_callback]

/-- One tick with no transformer active invokes no callback and leaves no transformer. -/
theorem loop_idle_frame {V : Type} (lerp : V → V → Nat → Nat → V) (now : Nat)
    (s : LightState V) (ht : s.transformer_ = none)
    (hv : s.active_effect_index_ ≤ s.effects_.length) :
    ∃ s1, s.loop lerp now = some s1 ∧ s1.transformer_ = none ∧
      s1.active_effect_index_ = s.active_effect_index_ ∧ s1.effects_ = s.effects_ ∧
      callbacks_of s1.trace = callbacks_of s.trace := by
  obtain ⟨e, he⟩ := get_active_effect_defined s hv
  refine ⟨_, loop_idle_eq lerp now s e he ht, ht, rfl, rfl, ?_⟩
  simp only [callbacks_of_append, effect_events_callbacks]
  split <;> simp [callbacks_of, Event.is_callback]

/-- One tick in which the transformer `t` is finished invokes the "target reached" callbacks
once each and the "remote changed" callbacks once each when `publish_at_end()`, and leaves no
transformer. -/
theorem loop_finished_frame {V : Type} (lerp : V → V → Nat → Nat → V) (now : Nat)
    (s : LightState V) (t : LightTransformer V) (ht : s.transformer_ = some t)
    (hv : s.active_effect_index_ ≤ s.effects_.length) (hf : t.is_finished now = true) :
    ∃ s1, s.loop lerp now = some s1 ∧ s1.transformer_ = none ∧
      s1.active_effect_index_ = s.active_effect_index_ ∧ s1.effects_ = s.effects_ ∧
      s1.current_values = t.get_end_values ∧ s1.remote_values = t.get_end_values ∧
      callbacks_of s1.trace = callbacks_of s.trace ++ target_reached_events s t.get_end_values ++
        (if t.publish_at_end then remote_changed_events s t.get_end_values else []) := by
  obtain ⟨e, he⟩ := get_active_effect_defined s hv
  refine ⟨_, loop_finished_eq lerp now s e t he ht hf, rfl, rfl, rfl, rfl, rfl, ?_⟩
  simp only [callbacks_of_append, effect_events_callbacks, target_reached_events_callbacks]
  split
  · rw [remote_changed_events_callbacks]
    simp [callbacks_of, Event.is_callback]
  · simp [callbacks_of, Event.is_callback]

/-- Ticks during which the transformer `t` is not finished keep it and invoke no callback. -/
theorem run_unfinished_ticks {V : Type} (lerp : V → V → Nat → Nat → V)
    (t : LightTransformer V) (befores : List Nat) :
    ∀ s : LightState V, s.transformer_ = some t →
      s.active_effect_index_ ≤ s.effects_.length →
      (∀ b ∈ befores, t.is_finished b = false) →
      ∃ s1, Request.run lerp (befores.map Request.loop) s = some s1 ∧
        s1.transformer_ = some t ∧
        s1.active_effect_index_ = s.active_effect_index_ ∧ s1.effects_ = s.effects_ ∧
        s1.remote_values_callback_ = s.remote_values_callback_ ∧
        s1.target_state_reached_callback_ = s.target_state_reached_callback_ ∧
        callbacks_of s1.trace = callbacks_of s.trace := by
  induction befores with
  | nil => intro s ht _ _; exact ⟨s, rfl, ht, rfl, rfl, rfl, rfl, rfl⟩
  | cons b bs ih =>
    intro s ht hv hb
    obtain ⟨s2, hl, g1, g2, g3, g4, g5, g6⟩ := loop_unfinished_frame lerp b s t ht hv
      (hb b (List.mem_cons_self b bs))
    obtain ⟨s1, h1, h2, h3, h4, h5, h6, h7⟩ := ih s2 g1 (by rw [g2, g3]; exact hv)
      (fun x hx => hb x (List.mem_cons_of_mem b hx))
    refine ⟨s1, ?_, h2, h3.trans g2, h4.trans g3, h5.trans g4, h6.trans g5, h7.trans g6⟩
    simp only [List.map_cons, Request.run, Request.perform, hl]
    exact h1

/-- Ticks with no transformer active invoke no callback and leave no transformer. -/
theorem run_idle_ticks {V : Type} (lerp : V → V → Nat → Nat → V) (afters : List Nat) :
    ∀ s : LightState V, s.transformer_ = none →
      s.active_effect_index_ ≤ s.effects_.length →
      ∃ s1, Request.run lerp (afters.map Request.loop) s = some s1 ∧
        s1.transformer_ = none ∧ callbacks_of s1.trace = callbacks_of s.trace := by
  induction afters with
  | nil => intro s ht _; exact ⟨s, rfl, ht, rfl⟩
  | cons a as ih =>
    intro s ht hv
    obtain ⟨s2, hl, g1, g2, g3, g4⟩ := loop_idle_frame lerp a s ht hv
    obtain ⟨s1, h1, h2, h3⟩ := ih s2 g1 (by rw [g2, g3]; exact hv)
    refine ⟨s1, ?_, h2, h3.trans g4⟩
    simp only [List.map_cons, Request.run, Request.perform, hl]
    exact h1

/-- The lookup of `get_active_effect_` for an index in range and not zero. -/
theorem get_active_effect_pos {V : Type} (s : LightState V)
    (h0 : s.active_effect_index_ ≠ 0) (hv : s.active_effect_index_ ≤ s.effects_.length) :
    ∃ e, s.effects_[s.active_effect_index_ - 1]? = some e ∧
      s.get_active_effect_ = some (some e) := by
  have hlt : s.active_effect_index_ - 1 < s.effects_.length := by omega
  refine ⟨s.effects_.get ⟨_, hlt⟩, by simp [List.getElem?_eq_getElem hlt], ?_⟩
  unfold LightState.get_active_effect_
  simp [h0, List.getElem?_eq_getElem hlt]

/-- The result of `stop_effect_` for an index in range. -/
theorem stop_effect_eq {V : Type} (s : LightState V)
    (hv : s.active_effect_index_ ≤ s.effects_.length) :
    s.stop_effect_ = some
      { s with
        active_effect_index_ := 0
        trace := s.trace ++
          (if s.active_effect_index_ = 0 then []
            else [Event.effect_stop s.active_effect_index_]) } := by
  by_cases h0 : s.active_effect_index_ = 0
  · simp [LightState.stop_effect_, LightState.get_active_effect_, h0]
  · obtain ⟨e, _, he⟩ := get_active_effect_pos s h0 hv
    simp [LightState.stop_effect_, he, h0]

/-- The result of `start_effect_` for indices in range. -/
theorem start_effect_eq {V : Type} (s : LightState V) (k : Nat)
    (hv : s.active_effect_index_ ≤ s.effects_.length) (hk : k ≤ s.effects_.length) :
    s.start_effect_ k = some
      { s with
        active_effect_index_ := k
        trace := s.trace ++
          (if s.active_effect_index_ = 0 then []
            else [Event.effect_stop s.active_effect_index_]) ++
          (if k = 0 then [] else [Event.effect_start k]) } := by
  unfold LightState.start_effect_
  rw [stop_effect_eq s hv]
  by_cases hk0 : k = 0
  · simp [hk0]
  · simp only [hk0, if_false]
    obtain ⟨e, _, he⟩ := get_active_effect_pos
      { s with
        active_effect_index_ := k
        trace := s.trace ++
          (if s.active_effect_index_ = 0 then []
            else [Event.effect_stop s.active_effect_index_]) } hk0 hk
    simp only [he]

/-- A tick returns and changes neither the effect index nor the list of effects. -/
theorem loop_keeps_effects {V : Type} (lerp : V → V → Nat → Nat → V) (now : Nat)
    (s : LightState V) (hv : s.active_effect_index_ ≤ s.effects_.length) :
    ∃ s1, s.loop lerp now = some s1 ∧
      s1.active_effect_index_ = s.active_effect_index_ ∧ s1.effects_ = s.effects_ := by
  cases ht : s.transformer_ with
  | none =>
    obtain ⟨s1, h1, _, h2, h3, _⟩ := loop_idle_frame lerp now s ht hv
    exact ⟨s1, h1, h2, h3⟩
  | some t =>
    cases hf : t.is_finished now with
    | true =>
      obtain ⟨s1, h1, _, h2, h3, _⟩ := loop_finished_frame lerp now s t ht hv hf
      exact ⟨s1, h1, h2, h3⟩
    | false =>
      obtain ⟨s1, h1, _, h2, h3, _⟩ := loop_unfinished_frame lerp now s t ht hv hf
      exact ⟨s1, h1, h2, h3⟩

/-- The transformer block of a tick sets the dirty flag and invokes callbacks only. -/
theorem loop_transformer_trace {V : Type} (lerp : V → V → Nat → Nat → V) (now : Nat)
    (t : LightTransformer V) (s : LightState V) :
    (LightState.loop_transformer lerp now t s).next_write_ = true ∧
    ∃ cbs, (LightState.loop_transformer lerp now t s).trace = s.trace ++ cbs ∧
      callbacks_of cbs = cbs ∧ cbs.filter Event.is_write = [] := by
  refine ⟨rfl, ?_⟩
  cases hf : t.is_finished now with
  | false =>
    exact ⟨[], by simp [LightState.loop_transformer, hf], rfl, rfl⟩
  | true =>
    cases hp : t.publish_at_end with
    | false =>
      refine ⟨target_reached_events s t.get_end_values, ?_,
        target_reached_events_callbacks s _, ?_⟩
      · simp [LightState.loop_transformer, hf, hp,
          LightState.call_target_state_reached_callback_, target_reached_events]
      · simp [target_reached_events, List.filter_map, Function.comp_def, Event.is_write]
    | true =>
      refine ⟨target_reached_events s t.get_end_values ++
        remote_changed_events s t.get_end_values, ?_, ?_, ?_⟩
      · simp [LightState.loop_transformer, hf, hp, LightState.publish_state,
          LightState.call_remote_values_callback_,
          LightState.call_target_state_reached_callback_, target_reached_events,
          remote_changed_events]
      · rw [callbacks_of_append, target_reached_events_callbacks,
          remote_changed_events_callbacks]
      · simp [target_reached_events, remote_changed_events, List.filter_map,
          Function.comp_def, Event.is_write]

/-- Requests other than the tick leave a set dirty flag set. -/
theorem request_keeps_dirty {V : Type} (lerp : V → V → Nat → Nat → V) (r : Request V)
    (s t : LightState V) (hr : ∀ now, r ≠ Request.loop now) (hd : s.next_write_ = true)
    (h : r.perform lerp s = some t) : t.next_write_ = true := by
  cases r with
  | start_transition_ now target length =>
    simp [Request.perform] at h; subst h; exact hd
  | start_flash_ now target length =>
    simp [Request.perform] at h; subst h; exact hd
  | set_immediately_ target b =>
    simp [Request.perform] at h; subst h; rfl
  | start_effect_ k =>
    simp only [Request.perform, LightState.start_effect_] at h
    cases hs : s.stop_effect_ with
    | none => simp [hs] at h
    | some s1 =>
      have h1 : s1.next_write_ = true := by
        simp only [LightState.stop_effect_] at hs
        cases he : s.get_active_effect_ with
        | none => simp [he] at hs
        | some e => cases e <;> (simp [he] at hs; subst hs; exact hd)
      simp only [hs] at h
      by_cases hk : k = 0
      · simp [hk] at h; subst h; exact h1
      · simp only [hk, if_false] at h
        split at h
        · simp at h; subst h; exact h1
        · simp at h
  | stop_effect_ =>
    simp only [Request.perform, LightState.stop_effect_] at h
    cases he : s.get_active_effect_ with
    | none => simp [he] at h
    | some e => cases e <;> (simp [he] at h; subst h; exact hd)
  | publish_state =>
    simp [Request.perform] at h; subst h; rfl
  | loop now => exact absurd rfl (hr now)

/-- A run without ticks leaves a set dirty flag set. -/
theorem run_keeps_dirty {V : Type} (lerp : V → V → Nat → Nat → V) (rs : List (Request V)) :
    ∀ s t : LightState V, (∀ r ∈ rs, ∀ now, r ≠ Request.loop now) → s.next_write_ = true →
      Request.run lerp rs s = some t → t.next_write_ = true := by
  induction rs with
  | nil =>
    intro s t _ hd h
    simp [Request.run] at h
    subst h
    exact hd
  | cons r rs ih =>
    intro s t hr hd h
    cases hp : r.perform lerp s with
    | none => simp [Request.run, hp] at h
    | some u =>
      simp only [Request.run, hp] at h
      exact ih u t (fun x hx => hr x (List.mem_cons_of_mem r hx))
        (request_keeps_dirty lerp r s u (hr r (List.mem_cons_self r rs)) hd hp) h

/-! ## Theorems about the tick, the effects and the startup restore -/

/-- C11. Over the life of an active transformer `t`: the ticks at the times `befores`, at which
`t` is not finished, invoke no callback; the tick at `now`, at which `t` reports
`is_finished`, invokes every "target reached" callback exactly once, in registration order,
and after them every "remote changed" callback exactly once, in registration order, if
`t.publish_at_end()` and none otherwise, and leaves no transformer; the ticks at the later
times `afters`, with no new request, invoke no callback. All these ticks return. A Transition
has `publish_at_end() = false` and a Flash has `publish_at_end() = true`. -/
theorem completion_callbacks_fire_once {V : Type} (lerp : V → V → Nat → Nat → V)
    (s : LightState V) (t : LightTransformer V) (befores : List Nat) (now : Nat)
    (afters : List Nat)
    (ht : s.transformer_ = some t)
    (hvalid : s.active_effect_index_ ≤ s.effects_.length)
    (hbefore : ∀ b ∈ befores, t.is_finished b = false)
    (hfin : t.is_finished now = true) :
    (∃ s1 s2 s3,
      Request.run lerp (befores.map Request.loop) s = some s1 ∧
      callbacks_of s1.trace = callbacks_of s.trace ∧
      s1.loop lerp now = some s2 ∧
      callbacks_of s2.trace = callbacks_of s1.trace ++
        target_reached_events s t.get_end_values ++
        (if t.publish_at_end then remote_changed_events s t.get_end_values else []) ∧
      s2.transformer_ = none ∧
      Request.run lerp (afters.map Request.loop) s2 = some s3 ∧
      callbacks_of s3.trace = callbacks_of s2.trace ∧
      Request.run lerp ((befores ++ now :: afters).map Request.loop) s = some s3) ∧
    (∀ (start length : Nat) (a b : V),
      (LightTransitionTransformer start length a b).publish_at_end = false) ∧
    (∀ (start length : Nat) (a b : V),
      (LightFlashTransformer start length a b).publish_at_end = true) := by
  refine ⟨?_, fun _ _ _ _ => rfl, fun _ _ _ _ => rfl⟩
  obtain ⟨s1, r1, g1, g2, g3, g4, g5, g6⟩ := run_unfinished_ticks lerp t befores s ht hvalid
    hbefore
  obtain ⟨s2, r2, k1, k2, k3, _, _, k6⟩ := loop_finished_frame lerp now s1 t g1
    (by rw [g2, g3]; exact hvalid) hfin
  obtain ⟨s3, r3, m1, m2⟩ := run_idle_ticks lerp afters s2 k1 (by rw [k2, k3, g2, g3]; exact hvalid)
  have hev : target_reached_events s1 t.get_end_values = target_reached_events s t.get_end_values
      ∧ remote_changed_events s1 t.get_end_values = remote_changed_events s t.get_end_values := by
    unfold target_reached_events remote_changed_events
    rw [g4, g5]
    exact ⟨rfl, rfl⟩
  refine ⟨s1, s2, s3, r1, g6, r2, ?_, k1, r3, m2, ?_⟩
  · rw [k6, hev.1, hev.2]
  · rw [List.map_append, run_append lerp _ _ s s1 r1]
    simp only [List.map_cons, Request.run, Request.perform, r2]
    exact r3

/-- Witness of C11: in `flashObserved` (a Flash of length 100 started at time 0, two "remote
changed" callbacks, one "target reached" callback) the ticks at times 10 and 50 come before
completion, the tick at time 100 completes the flash, and ticks at 110 and 120 follow. -/
theorem completion_callbacks_fire_once_witness :
    flashObserved.transformer_ = some (LightFlashTransformer 0 100 1 2) ∧
    flashObserved.active_effect_index_ ≤ flashObserved.effects_.length ∧
    (∀ b ∈ [10, 50], (LightFlashTransformer 0 100 1 2).is_finished b = false) ∧
    (LightFlashTransformer 0 100 1 2).is_finished 100 = true ∧
    ∃ s1 s2 s3,
      Request.run natLerp ([10, 50].map Request.loop) flashObserved = some s1 ∧
      callbacks_of s1.trace = callbacks_of flashObserved.trace ∧
      s1.loop natLerp 100 = some s2 ∧
      callbacks_of s2.trace = callbacks_of s1.trace ++
        target_reached_events flashObserved (LightFlashTransformer 0 100 1 2).get_end_values ++
        (if (LightFlashTransformer 0 100 1 2).publish_at_end
          then remote_changed_events flashObserved (LightFlashTransformer 0 100 1 2).get_end_values
          else []) ∧
      s2.transformer_ = none ∧
      Request.run natLerp ([110, 120].map Request.loop) s2 = some s3 ∧
      callbacks_of s3.trace = callbacks_of s2.trace ∧
      Request.run natLerp (([10, 50] ++ 100 :: [110, 120]).map Request.loop) flashObserved
        = some s3 :=
  ⟨rfl, by decide, by decide, by decide,
    (completion_callbacks_fire_once natLerp flashObserved (LightFlashTransformer 0 100 1 2)
      [10, 50] 100 [110, 120] rfl (by decide) (by decide) (by decide)).1⟩

/-- C12. Zero-duration transition: from every state (effect index in range) and for every
target, `start_transition_(target, 0)` at time `now` followed by one tick at any time `later`
returns with `current_values == remote_values == target` and no transformer; the transformer
is finished on that first check, and the tick does not depend on the interpolation `lerp`,
which is the only place where the duration would divide. -/
theorem zero_length_transition_completes {V : Type} (lerp : V → V → Nat → Nat → V)
    (s : LightState V) (now : Nat) (target : V) (later : Nat)
    (hvalid : s.active_effect_index_ ≤ s.effects_.length) :
    (LightTransitionTransformer now 0 s.current_values target).is_finished later = true ∧
    (∃ s1, (s.start_transition_ now target 0).loop lerp later = some s1 ∧
      s1.current_values = target ∧ s1.remote_values = target ∧ s1.transformer_ = none) ∧
    (∀ other : V → V → Nat → Nat → V,
      (s.start_transition_ now target 0).loop other later =
        (s.start_transition_ now target 0).loop lerp later) := by
  have hf : (LightTransitionTransformer now 0 s.current_values target).is_finished later
      = true := by
    simp [LightTransformer.is_finished, LightTransitionTransformer]
  have ht : (s.start_transition_ now target 0).transformer_ =
      some (LightTransitionTransformer now 0 s.current_values target) := rfl
  refine ⟨hf, ?_, ?_⟩
  · obtain ⟨s1, h1, h2, _, _, h5, h6, _⟩ := loop_finished_frame lerp later
      (s.start_transition_ now target 0) _ ht hvalid hf
    exact ⟨s1, h1, h5, h6, h2⟩
  · intro other
    obtain ⟨e, he⟩ := get_active_effect_defined (s.start_transition_ now target 0) hvalid
    rw [loop_finished_eq other later _ e _ he ht hf, loop_finished_eq lerp later _ e _ he ht hf]

/-- Witness of C12: from the constructed state with value 1, a transition to 9 of length 0
started at time 5 and one tick at time 5. -/
theorem zero_length_transition_completes_witness :
    (LightState.init 1 LightRestoreMode.LIGHT_RESTORE_DEFAULT_OFF).active_effect_index_ ≤
      (LightState.init 1 LightRestoreMode.LIGHT_RESTORE_DEFAULT_OFF).effects_.length ∧
    ∃ s1,
      ((LightState.init 1 LightRestoreMode.LIGHT_RESTORE_DEFAULT_OFF).start_transition_ 5 9
        0).loop natLerp 5 = some s1 ∧
      s1.current_values = 9 ∧ s1.remote_values = 9 ∧ s1.transformer_ = none :=
  ⟨by decide,
    (zero_length_transition_completes natLerp
      (LightState.init 1 LightRestoreMode.LIGHT_RESTORE_DEFAULT_OFF) 5 9 5 (by decide)).2.1⟩

/-- C16. The transformer step of a tick, `e` being the result of `get_active_effect_`. If the
active transformer `t` is finished, the tick ends with `current_values` and `remote_values`
both `t.get_end_values()` and no transformer, and every "target reached" callback is invoked
with both values already equal to `t.get_end_values()`. If `t` is not finished, the tick ends
with `current_values = t.get_values(now)`, `remote_values = t.get_remote_values()` and the
same transformer. If no transformer is active, the tick leaves `remote_values` as it was,
`current_values` as the effect block left it, and no transformer. -/
theorem tick_transformer_step {V : Type} (lerp : V → V → Nat → Nat → V) (now : Nat)
    (s : LightState V) (e : Option (LightEffect V)) (he : s.get_active_effect_ = some e) :
    (∀ t, s.transformer_ = some t → t.is_finished now = true →
      ∃ s1, s.loop lerp now = some s1 ∧
        s1.current_values = t.get_end_values ∧ s1.remote_values = t.get_end_values ∧
        s1.transformer_ = none ∧
        s1.trace = s.trace ++ effect_events e s ++
          (List.range s.target_state_reached_callback_).map
            (fun id => Event.target_state_reached_callback id t.get_end_values
              t.get_end_values) ++
          (if t.publish_at_end then remote_changed_events s t.get_end_values else []) ++
          [Event.write_state t.get_end_values] ∧
        (∀ id current remote,
          Event.target_state_reached_callback id current remote ∈ s1.trace →
          Event.target_state_reached_callback id current remote ∈ s.trace ∨
            (current = remote ∧ remote = t.get_end_values))) ∧
    (∀ t, s.transformer_ = some t → t.is_finished now = false →
      ∃ s1, s.loop lerp now = some s1 ∧
        s1.current_values = t.get_values lerp now ∧
        s1.remote_values = t.get_remote_values ∧ s1.transformer_ = some t) ∧
    (s.transformer_ = none →
      ∃ s1, s.loop lerp now = some s1 ∧
        s1.current_values = (s.loop_effect e).current_values ∧
        s1.remote_values = s.remote_values ∧ s1.transformer_ = none) := by
  refine ⟨fun t ht hf => ?_, fun t ht hf => ?_, fun ht => ?_⟩
  · refine ⟨_, loop_finished_eq lerp now s e t he ht hf, rfl, rfl, rfl, rfl, ?_⟩
    intro id current remote hmem
    simp only [List.mem_append, List.mem_map, List.mem_range, List.mem_singleton] at hmem
    rcases hmem with (((h | h) | h) | h) | h
    · exact Or.inl h
    · cases e <;> simp [effect_events] at h
    · simp only [target_reached_events, List.mem_map] at h
      obtain ⟨_, _, h⟩ := h
      cases h
      exact Or.inr ⟨rfl, rfl⟩
    · split at h
      · simp [remote_changed_events] at h
      · simp at h
    · cases h
  · exact ⟨_, loop_unfinished_eq lerp now s e t he ht hf, rfl, rfl, ht⟩
  · exact ⟨_, loop_idle_eq lerp now s e he ht, rfl, rfl, ht⟩

/-- Witness of C16: the tick at time 100 in `flashObserved`, which has no active effect and
whose Flash is then finished. -/
theorem tick_transformer_step_witness :
    flashObserved.get_active_effect_ = some none ∧
    flashObserved.transformer_ = some (LightFlashTransformer 0 100 1 2) ∧
    (LightFlashTransformer 0 100 1 2).is_finished 100 = true ∧
    ∃ s1, flashObserved.loop natLerp 100 = some s1 ∧
      s1.current_values = (LightFlashTransformer 0 100 1 2).get_end_values ∧
      s1.remote_values = (LightFlashTransformer 0 100 1 2).get_end_values ∧
      s1.transformer_ = none :=
  ⟨rfl, rfl, by decide,
    match (tick_transformer_step natLerp 100 flashObserved none rfl).1
      (LightFlashTransformer 0 100 1 2) rfl (by decide) with
    | ⟨s1, h1, h2, h3, h4, _⟩ => ⟨s1, h1, h2, h3, h4⟩⟩

/-- C17. One tick from a state with the effect index in range. The tick returns; its events
are, in this order, the `apply` hook of the active effect (present exactly when the effect
index is not 0), the callbacks `cbs` invoked by the transformer evaluation, and the hardware
write; `s2` being the state after the first two steps, `write_state` is called, once and
with the `current_values` of `s2`, exactly when the dirty flag of `s2` is set, which is the
case exactly when the flag was set on entry or a transformer was active on entry; the events
of the tick contain one write in that case and none otherwise; after the tick the flag is
clear. The flag is set in the constructed state and stays set through every run of requests
without a tick, so the first tick after construction writes. -/
theorem tick_write_decision {V : Type} (lerp : V → V → Nat → Nat → V) (now : Nat)
    (s : LightState V) (hvalid : s.active_effect_index_ ≤ s.effects_.length) :
    (∃ (e : Option (LightEffect V)) (s2 : LightState V) (cbs : List (Event V)),
      s.get_active_effect_ = some e ∧ (e = none ↔ s.active_effect_index_ = 0) ∧
      s2.trace = s.trace ++ effect_events e s ++ cbs ∧ callbacks_of cbs = cbs ∧
      (s2.next_write_ = true ↔ (s.next_write_ = true ∨ s.transformer_.isSome = true)) ∧
      s.loop lerp now = some s2.loop_write ∧
      s2.loop_write.trace = s2.trace ++
        (if s2.next_write_ = true then [Event.write_state s2.current_values] else []) ∧
      ((effect_events e s ++ cbs ++
          (if s2.next_write_ = true then [Event.write_state s2.current_values]
            else [])).filter Event.is_write).length =
        (if s.next_write_ = true ∨ s.transformer_.isSome = true then 1 else 0) ∧
      s2.loop_write.next_write_ = false) ∧
    (∀ (v : V) (m : LightRestoreMode) (rs : List (Request V)) (s1 : LightState V),
      (LightState.init v m).next_write_ = true ∧
      ((∀ r ∈ rs, ∀ n, r ≠ Request.loop n) →
        Request.run lerp rs (LightState.init v m) = some s1 → s1.next_write_ = true)) := by
  refine ⟨?_, fun v m rs s1 => ⟨rfl, fun hr h =>
    run_keeps_dirty lerp rs (LightState.init v m) s1 hr rfl h⟩⟩
  obtain ⟨e, he⟩ := get_active_effect_defined s hvalid
  have hnone : e = none ↔ s.active_effect_index_ = 0 := by
    constructor
    · intro h0
      by_contra hne
      obtain ⟨e1, _, he1⟩ := get_active_effect_pos s hne hvalid
      rw [he1, h0] at he
      cases he
    · intro h0
      have : s.get_active_effect_ = some none := by
        simp [LightState.get_active_effect_, h0]
      rw [this] at he
      exact (Option.some.inj he).symm
  have hetr : (s.loop_effect e).trace = s.trace ++ effect_events e s := by
    cases e <;> simp [LightState.loop_effect, effect_events]
  have hew : (s.loop_effect e).next_write_ = s.next_write_ := by
    cases e <;> rfl
  have heff : (effect_events e s).filter Event.is_write = [] := by
    cases e <;> rfl
  have hlw : ∀ s2 : LightState V, s2.loop_write.trace = s2.trace ++
      (if s2.next_write_ = true then [Event.write_state s2.current_values] else []) ∧
      s2.loop_write.next_write_ = false := by
    intro s2
    unfold LightState.loop_write
    cases hw : s2.next_write_ <;> simp [hw]
  obtain ⟨_, f2⟩ := loop_effect_frame e s
  cases htr : s.transformer_ with
  | none =>
    have h2 : (s.loop_effect e).transformer_ = none := by rw [f2]; exact htr
    refine ⟨e, s.loop_effect e, [], he, hnone, by simp [hetr], rfl, ?_, ?_, (hlw _).1, ?_,
      (hlw _).2⟩
    · rw [hew]; simp [htr]
    · simp only [LightState.loop, he, h2]
    · rw [hew]
      cases hw : s.next_write_ <;> simp [List.filter_append, heff, Event.is_write, htr]
  | some t =>
    have h2 : (s.loop_effect e).transformer_ = some t := by rw [f2]; exact htr
    obtain ⟨hd, cbs, hc1, hc2, hc3⟩ := loop_transformer_trace lerp now t (s.loop_effect e)
    refine ⟨e, LightState.loop_transformer lerp now t (s.loop_effect e), cbs, he, hnone,
      by rw [hc1, hetr], hc2, ?_, ?_, (hlw _).1, ?_, (hlw _).2⟩
    · simp [hd, htr]
    · simp only [LightState.loop, he, h2]
    · rw [hd]
      simp [List.filter_append, heff, hc3, Event.is_write, htr]

/-- Witness of C17: the first tick after construction, at time 3, writes the value 1 once. -/
theorem tick_write_decision_witness :
    (LightState.init 1 LightRestoreMode.LIGHT_RESTORE_DEFAULT_OFF).active_effect_index_ ≤
      (LightState.init 1 LightRestoreMode.LIGHT_RESTORE_DEFAULT_OFF).effects_.length ∧
    ((LightState.init 1 LightRestoreMode.LIGHT_RESTORE_DEFAULT_OFF).loop natLerp 3).map
      (fun s => (s.trace, s.next_write_)) = some ([Event.write_state 1], false) ∧
    ∃ (e : Option (LightEffect Nat)) (s2 : LightState Nat) (cbs : List (Event Nat)),
      (LightState.init 1 LightRestoreMode.LIGHT_RESTORE_DEFAULT_OFF).get_active_effect_
        = some e ∧
      s2.trace = (LightState.init 1 LightRestoreMode.LIGHT_RESTORE_DEFAULT_OFF).trace ++
        effect_events e (LightState.init 1 LightRestoreMode.LIGHT_RESTORE_DEFAULT_OFF) ++ cbs ∧
      (LightState.init 1 LightRestoreMode.LIGHT_RESTORE_DEFAULT_OFF).loop natLerp 3 =
        some s2.loop_write ∧
      s2.loop_write.next_write_ = false :=
  ⟨by decide, by decide,
    match (tick_write_decision natLerp 3
      (LightState.init 1 LightRestoreMode.LIGHT_RESTORE_DEFAULT_OFF) (by decide)).1 with
    | ⟨e, s2, cbs, h1, _, h3, _, _, h6, _, _, h9⟩ => ⟨e, s2, cbs, h1, h3, h6, h9⟩⟩

/-- The name read by `get_effect_name` for an index in range and not zero. -/
theorem get_effect_name_pos {V : Type} (s : LightState V) (e : LightEffect V)
    (h0 : s.active_effect_index_ ≠ 0)
    (he : s.effects_[s.active_effect_index_ - 1]? = some e) :
    s.get_effect_name = some e.name := by
  have hpos : s.active_effect_index_ > 0 := Nat.pos_of_ne_zero h0
  simp [LightState.get_effect_name, hpos, he]

/-- With no active effect `get_effect_name` is "None". -/
theorem get_effect_name_zero {V : Type} (s : LightState V) (h0 : s.active_effect_index_ = 0) :
    s.get_effect_name = some "None" := by
  simp [LightState.get_effect_name, h0]

/-- C15. For every state with the effect index in range and every valid index `k`
(`1 ≤ k ≤` number of effects): `start_effect_(k)` returns, and afterwards `get_effect_name()`
is the declared name of `effects_[k-1]`; the following `start_effect_(0)` returns with the
active index 0, its only event is the stop hook of effect `k`, once, and no start hook, and
`get_effect_name()` is then "None". In every state with active index 0, `get_effect_name()`
is "None". -/
theorem effect_name_after_start_and_stop {V : Type} (s : LightState V) (k : Nat)
    (hvalid : s.active_effect_index_ ≤ s.effects_.length)
    (hk1 : 1 ≤ k) (hk : k ≤ s.effects_.length) :
    (∃ (e : LightEffect V) (s1 s2 : LightState V),
      s.effects_[k - 1]? = some e ∧
      s.start_effect_ k = some s1 ∧ s1.active_effect_index_ = k ∧
      s1.get_effect_name = some e.name ∧
      s1.start_effect_ 0 = some s2 ∧ s2.active_effect_index_ = 0 ∧
      s2.trace = s1.trace ++ [Event.effect_stop k] ∧
      s2.get_effect_name = some "None") ∧
    (∀ t : LightState V, t.active_effect_index_ = 0 → t.get_effect_name = some "None") := by
  refine ⟨?_, fun t h0 => get_effect_name_zero t h0⟩
  have hk0 : k ≠ 0 := by omega
  have hlt : k - 1 < s.effects_.length := by omega
  have h1 := start_effect_eq s k hvalid hk
  have h2 := start_effect_eq
    { s with
      active_effect_index_ := k
      trace := s.trace ++
        (if s.active_effect_index_ = 0 then []
          else [Event.effect_stop s.active_effect_index_]) ++
        (if k = 0 then [] else [Event.effect_start k]) } 0 hk (Nat.zero_le _)
  refine ⟨s.effects_.get ⟨k - 1, hlt⟩, _, _, by simp [List.getElem?_eq_getElem hlt], h1, rfl,
    ?_, h2, rfl, ?_, get_effect_name_zero _ rfl⟩
  · exact get_effect_name_pos _ _ hk0 (by simp [List.getElem?_eq_getElem hlt])
  · simp [hk0]

/-- Witness of C15: in `twoEffects`, effect 1 is "Pulse"; it is started and then stopped by
`start_effect_(0)`. -/
theorem effect_name_after_start_and_stop_witness :
    twoEffects.active_effect_index_ ≤ twoEffects.effects_.length ∧ 1 ≤ 1 ∧
    1 ≤ twoEffects.effects_.length ∧
    (twoEffects.start_effect_ 1).bind LightState.get_effect_name = some "Pulse" ∧
    ((twoEffects.start_effect_ 1).bind (LightState.start_effect_ 0)).bind
      LightState.get_effect_name = some "None" ∧
    ∃ (e : LightEffect Nat) (s1 s2 : LightState Nat),
      twoEffects.effects_[1 - 1]? = some e ∧
      twoEffects.start_effect_ 1 = some s1 ∧ s1.active_effect_index_ = 1 ∧
      s1.get_effect_name = some e.name ∧
      s1.start_effect_ 0 = some s2 ∧ s2.active_effect_index_ = 0 ∧
      s2.trace = s1.trace ++ [Event.effect_stop 1] ∧
      s2.get_effect_name = some "None" :=
  ⟨by decide, by decide, by decide, by decide, by decide,
    (effect_name_after_start_and_stop twoEffects 1 (by decide) (by decide) (by decide)).1⟩

/-- C18. For every state with the effect index in range and every `index` at most the number
of effects, `start_effect_(index)` returns; its events are, in this order, the stop hook of
the effect that was active, once, if one was active, and the start hook of `effects_[index-1]`,
once, if `index > 0` (so the effect is stopped and started again when `index` is the index
already active); the active index becomes `index` (0 stays 0) and nothing else changes.
`stop_effect_` returns with index 0 and the stop hook of the active effect, if any, as its
only event; with no active effect it changes nothing. -/
theorem start_effect_stops_then_starts {V : Type} (s : LightState V) (index : Nat)
    (hvalid : s.active_effect_index_ ≤ s.effects_.length)
    (hindex : index ≤ s.effects_.length) :
    s.start_effect_ index = some
      { s with
        active_effect_index_ := index
        trace := s.trace ++
          (if s.active_effect_index_ = 0 then []
            else [Event.effect_stop s.active_effect_index_]) ++
          (if index = 0 then [] else [Event.effect_start index]) } ∧
    (index ≠ 0 → ∃ e, s.effects_[index - 1]? = some e) ∧
    s.stop_effect_ = some
      { s with
        active_effect_index_ := 0
        trace := s.trace ++
          (if s.active_effect_index_ = 0 then []
            else [Event.effect_stop s.active_effect_index_]) } ∧
    (s.active_effect_index_ = 0 → s.stop_effect_ = some s) := by
  refine ⟨start_effect_eq s index hvalid hindex, fun h0 => ?_, stop_effect_eq s hvalid,
    fun h0 => ?_⟩
  · have hlt : index - 1 < s.effects_.length := by omega
    exact ⟨s.effects_.get ⟨index - 1, hlt⟩, by simp [List.getElem?_eq_getElem hlt]⟩
  · rw [stop_effect_eq s hvalid]
    cases s
    simp_all

/-- Witness of C18: in `twoEffects`, `start_effect_(2)` twice in a row: the second call stops
effect 2 and starts it again. -/
theorem start_effect_stops_then_starts_witness :
    twoEffects.active_effect_index_ ≤ twoEffects.effects_.length ∧
    2 ≤ twoEffects.effects_.length ∧
    ((twoEffects.start_effect_ 2).bind (LightState.start_effect_ 2)).map
      (fun s => (s.active_effect_index_, s.trace)) =
      some (2, [Event.effect_start 2, Event.effect_stop 2, Event.effect_start 2]) ∧
    twoEffects.start_effect_ 2 = some
      { twoEffects with
        active_effect_index_ := 2
        trace := twoEffects.trace ++
          (if twoEffects.active_effect_index_ = 0 then []
            else [Event.effect_stop twoEffects.active_effect_index_]) ++
          (if 2 = 0 then [] else [Event.effect_start 2]) } :=
  ⟨by decide, by decide, by decide,
    (start_effect_stops_then_starts twoEffects 2 (by decide) (by decide)).1⟩

/-- One operation whose effect index is in range returns and keeps the active index in
range. -/
theorem perform_keeps_index {V : Type} (lerp : V → V → Nat → Nat → V) (o : Operation V)
    (s : LightState V) (hv : s.active_effect_index_ ≤ s.effects_.length)
    (hin : o.index_in_range s) :
    ∃ t, o.perform lerp s = some t ∧ t.active_effect_index_ ≤ t.effects_.length := by
  cases o with
  | add_effects effects =>
    refine ⟨_, rfl, ?_⟩
    simp only [LightState.add_effects, List.length_append]
    omega
  | request r =>
    cases r with
    | start_transition_ now target length => exact ⟨_, rfl, hv⟩
    | start_flash_ now target length => exact ⟨_, rfl, hv⟩
    | set_immediately_ target b => exact ⟨_, rfl, by cases b <;> exact hv⟩
    | start_effect_ k =>
      have hk : k ≤ s.effects_.length := hin
      exact ⟨_, start_effect_eq s k hv hk, hk⟩
    | stop_effect_ => exact ⟨_, stop_effect_eq s hv, Nat.zero_le _⟩
    | publish_state => exact ⟨_, rfl, hv⟩
    | loop now =>
      obtain ⟨t, h1, h2, h3⟩ := loop_keeps_effects lerp now s hv
      exact ⟨t, h1, by rw [h2, h3]; exact hv⟩

/-- A run of operations whose effect indices are in range returns and keeps the active index
in range. -/
theorem run_keeps_index {V : Type} (lerp : V → V → Nat → Nat → V) (os : List (Operation V)) :
    ∀ s : LightState V, s.active_effect_index_ ≤ s.effects_.length →
      Operation.all_in_range lerp os s →
      ∃ t, Operation.run lerp os s = some t ∧
        t.active_effect_index_ ≤ t.effects_.length := by
  induction os with
  | nil => intro s hv _; exact ⟨s, rfl, hv⟩
  | cons o os ih =>
    intro s hv hr
    obtain ⟨hr1, hr2⟩ := hr
    obtain ⟨u, hu, hvu⟩ := perform_keeps_index lerp o s hv hr1
    simp only [hu] at hr2
    obtain ⟨t, ht, hvt⟩ := ih u hvu hr2
    exact ⟨t, by simp only [Operation.run, hu]; exact ht, hvt⟩

/-- C20. Effect-index invariant. The active index is 0 in the constructed state. From every
state with `active_effect_index_ ≤ effects_.size()`, every run of `start_transition_`,
`start_flash_`, `set_immediately_`, `start_effect_`, `stop_effect_`, `publish_state`, `loop`
and `add_effects` in which each `start_effect_` request has an index at most the number of
effects at that moment returns, and in the state it reaches
`active_effect_index_ ≤ effects_.size()`; there `get_active_effect_` and `get_effect_name`
are defined: with index 0 they are `nullptr` and "None" without any lookup, and with an index
above 0 the lookup `effects_[active_effect_index_ - 1]` is in range. -/
theorem effect_index_stays_in_range {V : Type} (lerp : V → V → Nat → Nat → V)
    (os : List (Operation V)) (s0 : LightState V)
    (h0 : s0.active_effect_index_ ≤ s0.effects_.length)
    (hr : Operation.all_in_range lerp os s0) :
    (∀ (v : V) (m : LightRestoreMode), (LightState.init v m).active_effect_index_ = 0) ∧
    ∃ s, Operation.run lerp os s0 = some s ∧
      s.active_effect_index_ ≤ s.effects_.length ∧
      (s.active_effect_index_ = 0 →
        s.get_active_effect_ = some none ∧ s.get_effect_name = some "None") ∧
      (s.active_effect_index_ ≠ 0 →
        s.active_effect_index_ - 1 < s.effects_.length ∧
        ∃ e, s.effects_[s.active_effect_index_ - 1]? = some e ∧
          s.get_active_effect_ = some (some e) ∧ s.get_effect_name = some e.name) := by
  refine ⟨fun _ _ => rfl, ?_⟩
  obtain ⟨s, hs, hv⟩ := run_keeps_index lerp os s0 h0 hr
  refine ⟨s, hs, hv, fun hz => ?_, fun hnz => ?_⟩
  · exact ⟨by simp [LightState.get_active_effect_, hz], get_effect_name_zero s hz⟩
  · obtain ⟨e, he1, he2⟩ := get_active_effect_pos s hnz hv
    exact ⟨by omega, e, he1, he2, get_effect_name_pos s e hnz he1⟩

/-- Every `start_effect_` request of `effectRun` from `twoEffects` has its index in range. -/
theorem effectRun_in_range : Operation.all_in_range natLerp effectRun twoEffects := by
  refine ⟨(by decide : (2 : Nat) ≤ 2), ?_⟩
  refine ⟨trivial, ?_⟩
  refine ⟨trivial, ?_⟩
  refine ⟨trivial, ?_⟩
  refine ⟨trivial, ?_⟩
  refine ⟨(by decide : (3 : Nat) ≤ 3), ?_⟩
  exact ⟨trivial, trivial⟩

/-- Witness of C20: `effectRun` from `twoEffects` ends with active index 0 and three
effects. -/
theorem effect_index_stays_in_range_witness :
    twoEffects.active_effect_index_ ≤ twoEffects.effects_.length ∧
    Operation.all_in_range natLerp effectRun twoEffects ∧
    (Operation.run natLerp effectRun twoEffects).map
      (fun s => (s.active_effect_index_, s.effects_.length)) = some (0, 3) ∧
    ∃ s, Operation.run natLerp effectRun twoEffects = some s ∧
      s.active_effect_index_ ≤ s.effects_.length ∧
      (s.active_effect_index_ = 0 →
        s.get_active_effect_ = some none ∧ s.get_effect_name = some "None") ∧
      (s.active_effect_index_ ≠ 0 →
        s.active_effect_index_ - 1 < s.effects_.length ∧
        ∃ e, s.effects_[s.active_effect_index_ - 1]? = some e ∧
          s.get_active_effect_ = some (some e) ∧ s.get_effect_name = some e.name) :=
  ⟨by decide, effectRun_in_range, by decide,
    (effect_index_stays_in_range natLerp effectRun twoEffects (by decide)
      effectRun_in_range).2⟩

/-- C13. Startup restore in the ALWAYS modes. Whatever the preferences hold (`persisted`,
nothing included) and whatever state `setup()` runs in, with restore mode `LIGHT_ALWAYS_ON` the
recovered snapshot has `state = true` and with `LIGHT_ALWAYS_OFF` it has `state = false`;
`rtc_.load` is not called; every other recovered field is the struct default (`brightness`,
`red`, `green`, `blue`, `white`, `color_temp` are `1.0f`, `effect` is 0); and the call built
from it invokes no `set_effect` and ends with `set_transition_length_if_supported(0)`. -/
theorem always_modes_ignore_persisted {V F : Type}
    (perform : LightCall F → LightState V → Option (LightState V)) (one : F)
    (persisted : Option (LightStateRTCState F)) (s : LightState V) :
    (LightState.setup perform one persisted
      { s with restore_mode_ := LightRestoreMode.LIGHT_ALWAYS_ON }).recovery =
      ⟨⟨true, one, one, one, one, one, one, 0⟩, 0⟩ ∧
    (LightState.setup perform one persisted
      { s with restore_mode_ := LightRestoreMode.LIGHT_ALWAYS_OFF }).recovery =
      ⟨⟨false, one, one, one, one, one, one, 0⟩, 0⟩ ∧
    (LightState.setup perform one persisted
      { s with restore_mode_ := LightRestoreMode.LIGHT_ALWAYS_ON }).call =
      ⟨[LightCallSetter.set_state true, LightCallSetter.set_brightness_if_supported one,
        LightCallSetter.set_red_if_supported one, LightCallSetter.set_green_if_supported one,
        LightCallSetter.set_blue_if_supported one, LightCallSetter.set_white_if_supported one,
        LightCallSetter.set_color_temperature_if_supported one,
        LightCallSetter.set_transition_length_if_supported 0]⟩ ∧
    (LightState.setup perform one persisted
      { s with restore_mode_ := LightRestoreMode.LIGHT_ALWAYS_OFF }).call =
      ⟨[LightCallSetter.set_state false, LightCallSetter.set_brightness_if_supported one,
        LightCallSetter.set_red_if_supported one, LightCallSetter.set_green_if_supported one,
        LightCallSetter.set_blue_if_supported one, LightCallSetter.set_white_if_supported one,
        LightCallSetter.set_color_temperature_if_supported one,
        LightCallSetter.set_transition_length_if_supported 0]⟩ :=
  ⟨rfl, rfl, rfl, rfl⟩

/-- C14. Startup restore in the DEFAULT modes, whatever state `setup()` runs in. `rtc_.load`
is called once. If it finds the snapshot `loaded`, the recovered snapshot is `loaded`, its
on/off state included, in both modes. If it finds nothing, the recovered snapshot has
`state = false` in mode `LIGHT_RESTORE_DEFAULT_OFF` and `state = true` in mode
`LIGHT_RESTORE_DEFAULT_ON`, all six channels at `1.0f` and `effect = 0`. -/
theorem default_modes_load_or_fall_back {V F : Type}
    (perform : LightCall F → LightState V → Option (LightState V)) (one : F)
    (loaded : LightStateRTCState F) (s : LightState V) :
    (LightState.setup perform one (some loaded)
      { s with restore_mode_ := LightRestoreMode.LIGHT_RESTORE_DEFAULT_OFF }).recovery =
      ⟨loaded, 1⟩ ∧
    (LightState.setup perform one (some loaded)
      { s with restore_mode_ := LightRestoreMode.LIGHT_RESTORE_DEFAULT_ON }).recovery =
      ⟨loaded, 1⟩ ∧
    (LightState.setup perform one none
      { s with restore_mode_ := LightRestoreMode.LIGHT_RESTORE_DEFAULT_OFF }).recovery =
      ⟨⟨false, one, one, one, one, one, one, 0⟩, 1⟩ ∧
    (LightState.setup perform one none
      { s with restore_mode_ := LightRestoreMode.LIGHT_RESTORE_DEFAULT_ON }).recovery =
      ⟨⟨true, one, one, one, one, one, one, 0⟩, 1⟩ :=
  ⟨rfl, rfl, rfl, rfl⟩

/-- C19. Startup call construction. For every recovered snapshot the call that `setup()`
builds invokes, in order, `set_state(recovered.state)`, the six `_if_supported` setters of
the channels with the recovered values, and then `set_effect(recovered.effect)` if
`recovered.effect != 0` and `set_transition_length_if_supported(0)` otherwise: the call has a
`set_effect` exactly when `recovered.effect != 0` and a transition-length setter, with length
0, exactly when `recovered.effect == 0`, never both and always one. The state after `setup()`
is the result of `perform()` on that one call, whatever `perform` is. -/
theorem setup_builds_one_call {V F : Type}
    (perform : LightCall F → LightState V → Option (LightState V)) (one : F)
    (persisted : Option (LightStateRTCState F)) (s : LightState V)
    (recovered : LightStateRTCState F) :
    setup_call recovered =
      ⟨[LightCallSetter.set_state recovered.state,
        LightCallSetter.set_brightness_if_supported recovered.brightness,
        LightCallSetter.set_red_if_supported recovered.red,
        LightCallSetter.set_green_if_supported recovered.green,
        LightCallSetter.set_blue_if_supported recovered.blue,
        LightCallSetter.set_white_if_supported recovered.white,
        LightCallSetter.set_color_temperature_if_supported recovered.color_temp,
        if recovered.effect ≠ 0 then LightCallSetter.set_effect recovered.effect
        else LightCallSetter.set_transition_length_if_supported 0]⟩ ∧
    (∀ k, LightCallSetter.set_effect k ∈ (setup_call recovered).setters ↔
      (recovered.effect ≠ 0 ∧ k = recovered.effect)) ∧
    (∀ n, LightCallSetter.set_transition_length_if_supported n ∈
        (setup_call recovered).setters ↔
      (recovered.effect = 0 ∧ n = 0)) ∧
    (s.setup perform one persisted).call =
      setup_call (s.setup perform one persisted).recovery.recovered ∧
    (s.setup perform one persisted).recovery = setup_recover one s.restore_mode_ persisted ∧
    (s.setup perform one persisted).state = perform (s.setup perform one persisted).call s := by
  refine ⟨?_, fun k => ?_, fun n => ?_, rfl, rfl, rfl⟩
  · unfold setup_call
    split <;> rfl
  · by_cases h : recovered.effect = 0
    · simp [setup_call, LightCall.set, make_call, h]
    · simp [setup_call, LightCall.set, make_call, h]
  · by_cases h : recovered.effect = 0
    · simp [setup_call, LightCall.set, make_call, h]
    · simp [setup_call, LightCall.set, make_call, h]

end light
end esphome
